import Mathlib

/-!
Task table of the scheduler (kernel/sched/task.c) and keyboard handler (kernel/arch/ih.c)

A shallow embedding of the task registry, of the round-robin selector and of
the keyboard interrupt handler.

* The global array `tasks[TASK_MAX_COUNT]` is a `List sched_task`; a table is
  well formed when its length is `TASK_MAX_COUNT`.
* An array access outside the list is undefined in C; every function that
  reads or writes the table returns an `Option`, and `none` stands for such an
  access.  `some r` means that the C function returns `r`.
* A `for (i = a; i < b; ++i)` loop is a recursion on the number of iterations
  that are left, `b - a` at the start.
* `kprint` appends a diagnostic to the console of the state.
* `ih_keyboard` is the list of its outside events (prints, port reads and
  writes, `ksend`) for given bytes at the status and data ports.
* The `_traced` variants of the searches also return the indices of `tasks`
  they read; they are proved to return what the plain searches return.
* `int`, `u_short` and `u_int` values are `Int` / `Nat`; no arithmetic is done
  on ids or statuses, so no wrap-around is involved there. The one sum the
  file computes (`esp`) is taken modulo `2 ^ 32`.
-/

namespace OcKernel

/-! ## Constants and types of the headers -/

/-- Constants of `sched/task.h`, which is not part of the sources at hand: they
are parameters of the development. `stacks_addr` is the address at which the
array `stacks` is placed. -/
structure task_config where
  TASK_MAX_COUNT : Nat
  TASK_STACK_SIZE : Nat
  TASK_UNINTERRUPTABLE : Nat
  TASK_RUNNING : Nat
  stacks_addr : Nat
deriving DecidableEq

/-- The general purpose registers of `struct gp_registers_t` (arch/reg.h, not
part of the sources at hand): the eight registers of the i386. -/
structure gp_registers_t where
  edi : Nat
  esi : Nat
  ebp : Nat
  esp : Nat
  ebx : Nat
  edx : Nat
  ecx : Nat
  eax : Nat
deriving DecidableEq

/-- The fields of `struct op_registers_t` that task.c assigns. -/
structure op_registers_t where
  cs : Nat
  ds : Nat
  ss : Nat
  eip : Nat
  esp : Nat
deriving DecidableEq

/-- The fields of `struct sched_task` that task.c uses. -/
structure sched_task where
  tid : Nat
  flags : Nat
  gp_registers : gp_registers_t
  op_registers : op_registers_t
  status : Nat
  msg_count_in : Nat
  time : Nat
  is_valid : Bool
deriving DecidableEq

/-- What `asm_get_flags`, `asm_get_cs`, `asm_get_ds` and `asm_get_ss` return at
the moment of a call. -/
structure cpu_regs where
  flags : Nat
  cs : Nat
  ds : Nat
  ss : Nat
deriving DecidableEq

/-- The diagnostics task.c prints. -/
inductive kmsg where
  | MSG_SCHED_TID_CREATE (address : Nat)
  | MSG_SCHED_TID_EXCEED
  | MSG_SCHED_TID_EXISTS
  | MSG_SCHED_TID_UNKNOWN
deriving DecidableEq

/-- The task array together with what has been printed so far. -/
structure sched_state where
  tasks : List sched_task
  console : List kmsg
deriving DecidableEq

/-- The value `memset(.., 0, sizeof(struct gp_registers_t))` leaves. -/
def gp_registers_zero : gp_registers_t :=
  { edi := 0, esi := 0, ebp := 0, esp := 0, ebx := 0, edx := 0, ecx := 0, eax := 0 }

/-- A task entry whose bytes are all zero. -/
def sched_task_zero : sched_task :=
  { tid := 0, flags := 0, gp_registers := gp_registers_zero,
    op_registers := { cs := 0, ds := 0, ss := 0, eip := 0, esp := 0 },
    status := 0, msg_count_in := 0, time := 0, is_valid := false }

/-- Size in bytes of a pointer and of `size_t` on the i386. -/
def sizeof_ptr : Nat := 4

/-- The value of `(size_t)&stacks[index]`: row `index` of
`void *stacks[TASK_MAX_COUNT][TASK_STACK_SIZE]`. -/
def stacks_row_addr (c : task_config) (index : Nat) : Nat :=
  c.stacks_addr + index * (c.TASK_STACK_SIZE * sizeof_ptr)

/-! ## Memory access -/

/-- Reading `tasks[i]`; `none` outside the array. -/
def read_task (tasks : List sched_task) (i : Int) : Option sched_task :=
  if 0 ≤ i then tasks[i.toNat]? else none

/-- Writing through `task = &tasks[i]`: the entry becomes `f` of its old value;
`none` outside the array. -/
def write_task (tasks : List sched_task) (i : Int) (f : sched_task → sched_task) :
    Option (List sched_task) :=
  match read_task tasks i with
  | none => none
  | some t => some (tasks.set i.toNat (f t))

/-- Printing a diagnostic. -/
def kprint (s : sched_state) (m : kmsg) : sched_state :=
  { s with console := s.console ++ [m] }

/-! ## The functions of task.c -/

/-- The function `sched_init`: the task array is cleared. -/
def sched_init (c : task_config) (s : sched_state) : sched_state :=
  { s with tasks := List.replicate c.TASK_MAX_COUNT sched_task_zero }

/-- The loop of `sched_find_task_index`, with `n` iterations left at index `i`. -/
def sched_find_task_index_loop (tasks : List sched_task) (tid : Nat) :
    Nat → Int → Option Int
  | 0, _ => some (-1)
  | n + 1, i =>
    match read_task tasks i with
    | none => none
    | some t =>
      if t.tid = tid ∧ t.is_valid = true then some i
      else sched_find_task_index_loop tasks tid n (i + 1)

/-- The function `sched_find_task_index`. -/
def sched_find_task_index (c : task_config) (tasks : List sched_task) (tid : Nat) :
    Option Int :=
  sched_find_task_index_loop tasks tid c.TASK_MAX_COUNT 0

/-- The loop of `sched_get_free_task_index`, with `n` iterations left at index `i`. -/
def sched_get_free_task_index_loop (tasks : List sched_task) : Nat → Int → Option Int
  | 0, _ => some (-1)
  | n + 1, i =>
    match read_task tasks i with
    | none => none
    | some t =>
      if t.is_valid = false then some i
      else sched_get_free_task_index_loop tasks n (i + 1)

/-- The function `sched_get_free_task_index`. -/
def sched_get_free_task_index (c : task_config) (tasks : List sched_task) : Option Int :=
  sched_get_free_task_index_loop tasks c.TASK_MAX_COUNT 0

/-- The function `sched_get_task_by_index`: the entry `&tasks[index]` points to. -/
def sched_get_task_by_index (tasks : List sched_task) (index : Int) : Option sched_task :=
  read_task tasks index

/-- Either loop of `sched_find_task_to_run_index`, with `n` iterations left at
index `i`; `rest` is the result of the code after the loop. -/
def sched_find_task_to_run_index_loop (c : task_config) (tasks : List sched_task)
    (rest : Option Int) : Nat → Int → Option Int
  | 0, _ => rest
  | n + 1, i =>
    match read_task tasks i with
    | none => none
    | some task =>
      if task.is_valid = true ∧ task.status = c.TASK_RUNNING then some i
      else sched_find_task_to_run_index_loop c tasks rest n (i + 1)

/-- The function `sched_find_task_to_run_index`: the first loop runs over
`index + 1 ≤ i < TASK_MAX_COUNT`, the second over `0 ≤ i < index + 1`. -/
def sched_find_task_to_run_index (c : task_config) (tasks : List sched_task)
    (index : Int) : Option Int :=
  sched_find_task_to_run_index_loop c tasks
    (sched_find_task_to_run_index_loop c tasks (some (-1)) (index + 1).toNat 0)
    ((c.TASK_MAX_COUNT : Int) - (index + 1)).toNat (index + 1)

/-- The assignments of `sched_create_task` to the entry at `index`. -/
def sched_create_task_fill (c : task_config) (cpu : cpu_regs) (tid address : Nat)
    (index : Int) (task : sched_task) : sched_task :=
  { task with
    tid := tid
    is_valid := true
    status := c.TASK_UNINTERRUPTABLE
    msg_count_in := 0
    time := 0
    flags := cpu.flags
    gp_registers := gp_registers_zero
    op_registers :=
      { cs := cpu.cs, ds := cpu.ds, ss := cpu.ss, eip := address,
        esp := (stacks_row_addr c index.toNat + c.TASK_STACK_SIZE) % 2 ^ (8 * sizeof_ptr) } }

/-- The function `sched_create_task`: the value returned and the state left. -/
def sched_create_task (c : task_config) (cpu : cpu_regs) (s : sched_state)
    (tid address : Nat) : Option (Bool × sched_state) :=
  let s1 := kprint s (kmsg.MSG_SCHED_TID_CREATE address)
  match sched_get_free_task_index c s1.tasks with
  | none => none
  | some index =>
    if index = -1 then some (false, kprint s1 kmsg.MSG_SCHED_TID_EXCEED)
    else
      match sched_find_task_index c s1.tasks tid with
      | none => none
      | some found =>
        if found ≠ -1 then some (false, kprint s1 kmsg.MSG_SCHED_TID_EXISTS)
        else
          match write_task s1.tasks index (sched_create_task_fill c cpu tid address index) with
          | none => none
          | some tasks1 => some (true, { s1 with tasks := tasks1 })

/-- The function `sched_run_task_by_id`. -/
def sched_run_task_by_id (c : task_config) (s : sched_state) (tid : Nat) :
    Option (Bool × sched_state) :=
  match sched_find_task_index c s.tasks tid with
  | none => none
  | some index =>
    if index = -1 then some (false, kprint s kmsg.MSG_SCHED_TID_UNKNOWN)
    else
      match write_task s.tasks index (fun task => { task with status := c.TASK_RUNNING }) with
      | none => none
      | some tasks1 => some (true, { s with tasks := tasks1 })

/-- The function `sched_stop_task_by_id`. -/
def sched_stop_task_by_id (c : task_config) (s : sched_state) (tid : Nat) :
    Option (Bool × sched_state) :=
  match sched_find_task_index c s.tasks tid with
  | none => none
  | some index =>
    if index = -1 then some (false, kprint s kmsg.MSG_SCHED_TID_UNKNOWN)
    else
      match write_task s.tasks index
          (fun task => { task with status := c.TASK_UNINTERRUPTABLE }) with
      | none => none
      | some tasks1 => some (true, { s with tasks := tasks1 })

/-- The function `sched_set_task_status_by_id`. -/
def sched_set_task_status_by_id (c : task_config) (s : sched_state) (tid status : Nat) :
    Option (Bool × sched_state) :=
  match sched_find_task_index c s.tasks tid with
  | none => none
  | some index =>
    if index = -1 then some (false, kprint s kmsg.MSG_SCHED_TID_UNKNOWN)
    else
      match write_task s.tasks index (fun task => { task with status := status }) with
      | none => none
      | some tasks1 => some (true, { s with tasks := tasks1 })

/-- Calling the selector `n` times, each time from the index it returned last. -/
def sched_find_task_to_run_index_iterate (c : task_config) (tasks : List sched_task) :
    Nat → Int → Option Int
  | 0, index => some index
  | n + 1, index =>
    match sched_find_task_to_run_index c tasks index with
    | none => none
    | some next => sched_find_task_to_run_index_iterate c tasks n next

/-! ## Sequences of registry calls -/

/-- One call of the registry, with its arguments; a creation also carries the
register values the processor holds when it is made. -/
inductive sched_call where
  | create (cpu : cpu_regs) (tid address : Nat)
  | run (tid : Nat)
  | stop (tid : Nat)
  | set_status (tid status : Nat)
deriving DecidableEq

/-- Performing one call. -/
def sched_call.exec (c : task_config) (s : sched_state) : sched_call →
    Option (Bool × sched_state)
  | .create cpu tid address => sched_create_task c cpu s tid address
  | .run tid => sched_run_task_by_id c s tid
  | .stop tid => sched_stop_task_by_id c s tid
  | .set_status tid status => sched_set_task_status_by_id c s tid status

/-- Performing a sequence of calls, first to last; the values returned are dropped. -/
def sched_calls_exec (c : task_config) : sched_state → List sched_call → Option sched_state
  | s, [] => some s
  | s, call :: calls =>
    match call.exec c s with
    | none => none
    | some (_, s1) => sched_calls_exec c s1 calls

/-- Whether the call is a `sched_create_task`. -/
def sched_call.is_create : sched_call → Bool
  | .create _ _ _ => true
  | _ => false

/-- The number of `sched_create_task` calls of the sequence that return true. -/
def sched_calls_created (c : task_config) : sched_state → List sched_call → Nat
  | _, [] => 0
  | s, call :: calls =>
    match call.exec c s with
    | none => 0
    | some (r, s1) =>
      (if call.is_create && r then 1 else 0) + sched_calls_created c s1 calls

/-- The number of occupied slots. -/
def occupied_count (tasks : List sched_task) : Nat :=
  tasks.countP (fun t => t.is_valid)

/-! ## Predicates of the statements -/

/-- The table has `TASK_MAX_COUNT` entries. -/
def table_ok (c : task_config) (tasks : List sched_task) : Prop :=
  tasks.length = c.TASK_MAX_COUNT

instance (c : task_config) (tasks : List sched_task) : Decidable (table_ok c tasks) := by
  unfold table_ok; infer_instance

/-- Slot `i` is occupied by a task with id `tid`. -/
def holds_tid (tasks : List sched_task) (tid : Nat) (i : Nat) : Bool :=
  match tasks[i]? with
  | some t => decide (t.tid = tid) && t.is_valid
  | none => false

/-- Slot `i` is occupied by a task whose status is `TASK_RUNNING`. -/
def runnable (c : task_config) (tasks : List sched_task) (i : Nat) : Bool :=
  match tasks[i]? with
  | some t => t.is_valid && decide (t.status = c.TASK_RUNNING)
  | none => false

/-- Slot `i` is occupied. -/
def occupied (tasks : List sched_task) (i : Nat) : Bool :=
  match tasks[i]? with
  | some t => t.is_valid
  | none => false

/-- Slot `i` exists and is not occupied. -/
def free_slot (tasks : List sched_task) (i : Nat) : Bool :=
  match tasks[i]? with
  | some t => !t.is_valid
  | none => false

/-- No two distinct occupied slots hold the same id. -/
def tid_unique (tasks : List sched_task) : Prop :=
  ∀ i j : Fin tasks.length, (tasks.get i).is_valid = true → (tasks.get j).is_valid = true →
    (tasks.get i).tid = (tasks.get j).tid → i = j

instance (tasks : List sched_task) : Decidable (tid_unique tasks) := by
  unfold tid_unique; infer_instance

/-! ## Concrete configurations and tables -/

/-- A configuration with three slots. -/
def example_config : task_config :=
  { TASK_MAX_COUNT := 3, TASK_STACK_SIZE := 1024, TASK_UNINTERRUPTABLE := 0,
    TASK_RUNNING := 1, stacks_addr := 1048576 }

/-- Register values of a processor in protected mode. -/
def example_cpu : cpu_regs := { flags := 514, cs := 8, ds := 16, ss := 16 }

/-- An entry with the given id, status and validity, zero elsewhere. -/
def example_task (tid status : Nat) (is_valid : Bool) : sched_task :=
  { sched_task_zero with tid := tid, status := status, is_valid := is_valid }

/-- Slot 0 is free but still carries the id 7; slots 1 and 2 are occupied. -/
def example_stale_table : List sched_task :=
  [example_task 7 1 false, example_task 7 0 true, example_task 9 1 true]

/-- Slots 0 and 2 are runnable, slot 1 is blocked. -/
def example_run_table : List sched_task :=
  [example_task 1 1 true, example_task 2 0 true, example_task 3 1 true]

/-- Three occupied slots, all blocked. -/
def example_idle_table : List sched_task :=
  [example_task 1 0 true, example_task 2 0 true, example_task 3 0 true]

/-- Three creations that succeed, mixed with a creation of an id that exists, a
start, and a stop of an unknown id. -/
def example_calls : List sched_call :=
  [sched_call.create example_cpu 1 4096, sched_call.run 1,
   sched_call.create example_cpu 1 8192, sched_call.create example_cpu 2 8192,
   sched_call.stop 7, sched_call.create example_cpu 3 12288]

/-- Reference for the selector, after the words of the specification: the smallest
`j` with `i < j < TASK_MAX_COUNT` whose slot is occupied and `TASK_RUNNING` when
there is one; otherwise the smallest such `j` with `0 ≤ j ≤ i` when there is
one; otherwise -1. -/
def two_pass_scan_reference (c : task_config) (tasks : List sched_task) (i : Nat) : Int :=
  match (List.range' (i + 1) (c.TASK_MAX_COUNT - (i + 1))).find? (runnable c tasks) with
  | some j => (j : Int)
  | none =>
    match (List.range' 0 (i + 1)).find? (runnable c tasks) with
    | some j => (j : Int)
    | none => -1

/-- The state the calls of `example_calls` leave after `sched_init`. -/
def example_full_state : sched_state :=
  { tasks :=
      [{ tid := 1, flags := 514, gp_registers := gp_registers_zero,
         op_registers := { cs := 8, ds := 16, ss := 16, eip := 4096, esp := 1049600 },
         status := 1, msg_count_in := 0, time := 0, is_valid := true },
       { tid := 2, flags := 514, gp_registers := gp_registers_zero,
         op_registers := { cs := 8, ds := 16, ss := 16, eip := 8192, esp := 1053696 },
         status := 0, msg_count_in := 0, time := 0, is_valid := true },
       { tid := 3, flags := 514, gp_registers := gp_registers_zero,
         op_registers := { cs := 8, ds := 16, ss := 16, eip := 12288, esp := 1057792 },
         status := 0, msg_count_in := 0, time := 0, is_valid := true }],
    console :=
      [kmsg.MSG_SCHED_TID_CREATE 4096, kmsg.MSG_SCHED_TID_CREATE 8192,
       kmsg.MSG_SCHED_TID_EXISTS, kmsg.MSG_SCHED_TID_CREATE 8192,
       kmsg.MSG_SCHED_TID_UNKNOWN, kmsg.MSG_SCHED_TID_CREATE 12288] }

/-! ## The keyboard interrupt handler (kernel/arch/ih.c) -/

/-- Constants of the headers ih.c includes, which are not part of the sources at
hand: they are parameters. `MSG_DATA_SIZE` is the number of bytes of the data
buffer of a message. -/
structure ih_config where
  PIC1_CMD_PORT : Nat
  KEYBOARD_STATUS_PORT : Nat
  KEYBOARD_DATA_PORT : Nat
  TID_TTY : Nat
  TTY_MSG_TYPE_GETC : Nat
  MSG_DATA_SIZE : Nat
deriving DecidableEq

/-- The fields of `struct message_t` that ih.c initialises. -/
structure message_t where
  type : Nat
  len : Nat
  data : List Nat
deriving DecidableEq

/-- What the handler does to the outside, in the order of the program. -/
inductive ih_event where
  | printf_MSG_IRQ1
  | asm_read_port (port : Nat)
  | asm_write_port (port value : Nat)
  | ksend (tid : Nat) (msg : message_t)
deriving DecidableEq

/-- The value of a byte read from a port once it is stored in a `char`, which is
signed on the i386. -/
def char_of_byte (b : Nat) : Int :=
  if b % 256 < 128 then ((b % 256 : Nat) : Int) else ((b % 256 : Nat) : Int) - 256

/-- The function `ih_keyboard`: the events of one invocation, given the bytes
present at the status port and at the data port. -/
def ih_keyboard (h : ih_config) (status_byte data_byte : Nat) : List ih_event :=
  let status := status_byte % 256
  if status &&& 1 ≠ 0 then
    let keycode := char_of_byte data_byte
    if keycode < 1 then
      [ih_event.printf_MSG_IRQ1, ih_event.asm_read_port h.KEYBOARD_STATUS_PORT,
       ih_event.asm_read_port h.KEYBOARD_DATA_PORT]
    else
      [ih_event.printf_MSG_IRQ1, ih_event.asm_read_port h.KEYBOARD_STATUS_PORT,
       ih_event.asm_read_port h.KEYBOARD_DATA_PORT,
       ih_event.ksend h.TID_TTY
         { type := h.TTY_MSG_TYPE_GETC, len := 1,
           data := (keycode % 256).toNat :: List.replicate (h.MSG_DATA_SIZE - 1) 0 },
       ih_event.asm_write_port h.PIC1_CMD_PORT 32]
  else
    [ih_event.printf_MSG_IRQ1, ih_event.asm_read_port h.KEYBOARD_STATUS_PORT,
     ih_event.asm_write_port h.PIC1_CMD_PORT 32]

/-- The port numbers of the PC, the tty task with id 1. -/
def example_ih_config : ih_config :=
  { PIC1_CMD_PORT := 32, KEYBOARD_STATUS_PORT := 100, KEYBOARD_DATA_PORT := 96,
    TID_TTY := 1, TTY_MSG_TYPE_GETC := 1, MSG_DATA_SIZE := 4 }

/-- The address just past row `index` of `stacks`, that is
`address_of(stacks[index]) + sizeof(stacks[index])`: the top of the stack region
of the slot. -/
def stacks_row_top (c : task_config) (index : Nat) : Nat :=
  stacks_row_addr c index + c.TASK_STACK_SIZE * sizeof_ptr

/-- A creation followed by a status change to the value 7. -/
def example_status_calls : List sched_call :=
  [sched_call.create example_cpu 1 4096, sched_call.set_status 1 7]

/-- Creations, starts and stops, and status changes to the two status values. -/
def example_domain_calls : List sched_call :=
  [sched_call.create example_cpu 1 4096, sched_call.set_status 1 1, sched_call.stop 1,
   sched_call.create example_cpu 2 8192, sched_call.run 2, sched_call.set_status 1 0]

/-- An occupied entry as `sched_create_task` fills it with the example registers,
with the given id, status, entry point and stack pointer. -/
def example_created (tid status eip esp : Nat) : sched_task :=
  { tid := tid, flags := 514, gp_registers := gp_registers_zero,
    op_registers := { cs := 8, ds := 16, ss := 16, eip := eip, esp := esp },
    status := status, msg_count_in := 0, time := 0, is_valid := true }

/-- The tasks A, B and C (ids 1, 2, 3) are created and then started. -/
def example_abc_calls : List sched_call :=
  [sched_call.create example_cpu 1 4096, sched_call.create example_cpu 2 8192,
   sched_call.create example_cpu 3 12288, sched_call.run 1, sched_call.run 2,
   sched_call.run 3]

/-- The state the calls of `example_abc_calls` leave after `sched_init`. -/
def example_abc_state : sched_state :=
  { tasks := [example_created 1 1 4096 1049600, example_created 2 1 8192 1053696,
              example_created 3 1 12288 1057792],
    console := [kmsg.MSG_SCHED_TID_CREATE 4096, kmsg.MSG_SCHED_TID_CREATE 8192,
                kmsg.MSG_SCHED_TID_CREATE 12288] }

/-- The state `example_abc_state` once B is stopped. -/
def example_abc_stopped : sched_state :=
  { tasks := [example_created 1 1 4096 1049600, example_created 2 0 8192 1053696,
              example_created 3 1 12288 1057792],
    console := [kmsg.MSG_SCHED_TID_CREATE 4096, kmsg.MSG_SCHED_TID_CREATE 8192,
                kmsg.MSG_SCHED_TID_CREATE 12288] }

/-! ## The searches together with the indices they read -/

/-- The loop of `sched_find_task_index` with the indices of `tasks` it reads, in
the order of the reads. -/
def sched_find_task_index_loop_traced (tasks : List sched_task) (tid : Nat) :
    Nat → Int → List Int × Option Int
  | 0, _ => ([], some (-1))
  | n + 1, i =>
    match read_task tasks i with
    | none => ([i], none)
    | some t =>
      if t.tid = tid ∧ t.is_valid = true then ([i], some i)
      else (i :: (sched_find_task_index_loop_traced tasks tid n (i + 1)).1,
            (sched_find_task_index_loop_traced tasks tid n (i + 1)).2)

/-- The function `sched_find_task_index` with the indices it reads. -/
def sched_find_task_index_traced (c : task_config) (tasks : List sched_task) (tid : Nat) :
    List Int × Option Int :=
  sched_find_task_index_loop_traced tasks tid c.TASK_MAX_COUNT 0

/-- The loop of `sched_get_free_task_index` with the indices it reads. -/
def sched_get_free_task_index_loop_traced (tasks : List sched_task) :
    Nat → Int → List Int × Option Int
  | 0, _ => ([], some (-1))
  | n + 1, i =>
    match read_task tasks i with
    | none => ([i], none)
    | some t =>
      if t.is_valid = false then ([i], some i)
      else (i :: (sched_get_free_task_index_loop_traced tasks n (i + 1)).1,
            (sched_get_free_task_index_loop_traced tasks n (i + 1)).2)

/-- The function `sched_get_free_task_index` with the indices it reads. -/
def sched_get_free_task_index_traced (c : task_config) (tasks : List sched_task) :
    List Int × Option Int :=
  sched_get_free_task_index_loop_traced tasks c.TASK_MAX_COUNT 0

/-- Either loop of `sched_find_task_to_run_index` with the indices it reads; `rest`
is what the code after the loop reads and returns. -/
def sched_find_task_to_run_index_loop_traced (c : task_config) (tasks : List sched_task)
    (rest : List Int × Option Int) : Nat → Int → List Int × Option Int
  | 0, _ => rest
  | n + 1, i =>
    match read_task tasks i with
    | none => ([i], none)
    | some task =>
      if task.is_valid = true ∧ task.status = c.TASK_RUNNING then ([i], some i)
      else (i :: (sched_find_task_to_run_index_loop_traced c tasks rest n (i + 1)).1,
            (sched_find_task_to_run_index_loop_traced c tasks rest n (i + 1)).2)

/-- The function `sched_find_task_to_run_index` with the indices it reads. -/
def sched_find_task_to_run_index_traced (c : task_config) (tasks : List sched_task)
    (index : Int) : List Int × Option Int :=
  sched_find_task_to_run_index_loop_traced c tasks
    (sched_find_task_to_run_index_loop_traced c tasks ([], some (-1)) (index + 1).toNat 0)
    ((c.TASK_MAX_COUNT : Int) - (index + 1)).toNat (index + 1)

/-- The generic search loop with the indices it reads. -/
def scan_loop_traced (p : sched_task → Bool) (tasks : List sched_task)
    (rest : List Int × Option Int) : Nat → Nat → List Int × Option Int
  | 0, _ => rest
  | n + 1, i =>
    match tasks[i]? with
    | none => ([(i : Int)], none)
    | some t =>
      if p t then ([(i : Int)], some (i : Int))
      else ((i : Int) :: (scan_loop_traced p tasks rest n (i + 1)).1,
            (scan_loop_traced p tasks rest n (i + 1)).2)

/-! ## The loops as a search for the first matching slot -/

/-- Whether the entry at `k` exists and satisfies `p`. -/
def slot_sat (p : sched_task → Bool) (tasks : List sched_task) (k : Nat) : Bool :=
  match tasks[k]? with
  | some t => p t
  | none => false

/-- A loop that returns the first index at which `p` holds, `n` iterations left
at index `i`, and `rest` when it runs to its end. -/
def scan_loop (p : sched_task → Bool) (tasks : List sched_task) (rest : Option Int) :
    Nat → Nat → Option Int
  | 0, _ => rest
  | n + 1, i =>
    match tasks[i]? with
    | none => none
    | some t => if p t then some (i : Int) else scan_loop p tasks rest n (i + 1)

theorem read_task_natCast (tasks : List sched_task) (i : Nat) :
    read_task tasks (i : Int) = tasks[i]? := by
  simp [read_task]

theorem read_task_neg (tasks : List sched_task) (i : Int) (h : i < 0) :
    read_task tasks i = none := by
  simp [read_task]; omega

theorem sched_find_task_index_loop_eq (tasks : List sched_task) (tid : Nat) (n i : Nat) :
    sched_find_task_index_loop tasks tid n (i : Int)
      = scan_loop (fun t => decide (t.tid = tid) && t.is_valid) tasks (some (-1)) n i := by
  induction n generalizing i with
  | zero => rfl
  | succ n ih =>
    simp only [sched_find_task_index_loop, scan_loop, read_task_natCast]
    cases h : tasks[i]? with
    | none => rfl
    | some t =>
      have := ih (i + 1)
      simp only [Nat.cast_add, Nat.cast_one] at this
      simp [this]

theorem sched_get_free_task_index_loop_eq (tasks : List sched_task) (n i : Nat) :
    sched_get_free_task_index_loop tasks n (i : Int)
      = scan_loop (fun t => !t.is_valid) tasks (some (-1)) n i := by
  induction n generalizing i with
  | zero => rfl
  | succ n ih =>
    simp only [sched_get_free_task_index_loop, scan_loop, read_task_natCast]
    cases h : tasks[i]? with
    | none => rfl
    | some t =>
      have := ih (i + 1)
      simp only [Nat.cast_add, Nat.cast_one] at this
      simp [this]

theorem sched_find_task_to_run_index_loop_eq (c : task_config) (tasks : List sched_task)
    (rest : Option Int) (n i : Nat) :
    sched_find_task_to_run_index_loop c tasks rest n (i : Int)
      = scan_loop (fun t => t.is_valid && decide (t.status = c.TASK_RUNNING)) tasks rest n i := by
  induction n generalizing i with
  | zero => rfl
  | succ n ih =>
    simp only [sched_find_task_to_run_index_loop, scan_loop, read_task_natCast]
    cases h : tasks[i]? with
    | none => rfl
    | some t =>
      have := ih (i + 1)
      simp only [Nat.cast_add, Nat.cast_one] at this
      simp [this]

/-- The loop finds the first slot of its range that satisfies `p`. -/
theorem scan_loop_found (p : sched_task → Bool) (tasks : List sched_task) (rest : Option Int)
    (n i j : Nat) (hlen : i + n ≤ tasks.length) (hij : i ≤ j) (hjn : j < i + n)
    (hj : slot_sat p tasks j = true)
    (hmin : ∀ k, i ≤ k → k < j → slot_sat p tasks k = false) :
    scan_loop p tasks rest n i = some (j : Int) := by
  induction n generalizing i with
  | zero => omega
  | succ n ih =>
    have hi : i < tasks.length := by omega
    simp only [scan_loop, List.getElem?_eq_getElem hi]
    by_cases hpi : p tasks[i] = true
    · have : ¬ i < j := by
        intro hlt
        have := hmin i (le_refl i) hlt
        simp [slot_sat, List.getElem?_eq_getElem hi, hpi] at this
      have hji : j = i := by omega
      simp [hpi, hji]
    · have hne : i ≠ j := by
        rintro rfl
        simp [slot_sat, List.getElem?_eq_getElem hi] at hj
        exact hpi hj
      simp only [hpi, if_false, Bool.false_eq_true]
      exact ih (i + 1) (by omega) (by omega) (by omega) (fun k hk hkj => hmin k (by omega) hkj)

/-- The loop runs to its end when no slot of its range satisfies `p`. -/
theorem scan_loop_rest (p : sched_task → Bool) (tasks : List sched_task) (rest : Option Int)
    (n i : Nat) (hlen : i + n ≤ tasks.length)
    (hno : ∀ k, i ≤ k → k < i + n → slot_sat p tasks k = false) :
    scan_loop p tasks rest n i = rest := by
  induction n generalizing i with
  | zero => rfl
  | succ n ih =>
    have hi : i < tasks.length := by omega
    have hpi := hno i (le_refl i) (by omega)
    simp only [slot_sat, List.getElem?_eq_getElem hi] at hpi
    simp only [scan_loop, List.getElem?_eq_getElem hi, hpi, if_false, Bool.false_eq_true]
    exact ih (i + 1) (by omega) (fun k hk hkn => hno k (by omega) (by omega))

/-- In a range there is a first slot that satisfies `p`, or none does. -/
theorem slot_sat_first (p : sched_task → Bool) (tasks : List sched_task) (i n : Nat) :
    (∃ j, i ≤ j ∧ j < i + n ∧ slot_sat p tasks j = true ∧
        ∀ k, i ≤ k → k < j → slot_sat p tasks k = false) ∨
      (∀ k, i ≤ k → k < i + n → slot_sat p tasks k = false) := by
  induction n with
  | zero => right; intro k hk hkn; omega
  | succ n ih =>
    rcases ih with ⟨j, h1, h2, h3, h4⟩ | hno
    · left; exact ⟨j, h1, by omega, h3, h4⟩
    · by_cases hp : slot_sat p tasks (i + n) = true
      · left; exact ⟨i + n, by omega, by omega, hp, fun k hk hkn => hno k hk hkn⟩
      · right
        intro k hk hkn
        by_cases hkin : k = i + n
        · subst hkin; simpa using hp
        · exact hno k hk (by omega)

/-! ## What the three searches return -/

theorem holds_tid_eq (tasks : List sched_task) (tid k : Nat) :
    holds_tid tasks tid k = slot_sat (fun t => decide (t.tid = tid) && t.is_valid) tasks k := rfl

theorem runnable_eq (c : task_config) (tasks : List sched_task) (k : Nat) :
    runnable c tasks k
      = slot_sat (fun t => t.is_valid && decide (t.status = c.TASK_RUNNING)) tasks k := rfl

theorem free_slot_eq (tasks : List sched_task) (k : Nat) :
    free_slot tasks k = slot_sat (fun t => !t.is_valid) tasks k := rfl

theorem sched_find_task_index_found (c : task_config) (tasks : List sched_task) (tid j : Nat)
    (hok : table_ok c tasks) (hj : holds_tid tasks tid j = true)
    (hmin : ∀ k, k < j → holds_tid tasks tid k = false) :
    sched_find_task_index c tasks tid = some (j : Int) := by
  have hjl : j < tasks.length := by
    by_contra hge
    simp [holds_tid, List.getElem?_eq_none (not_lt.mp hge)] at hj
  have h0 := sched_find_task_index_loop_eq tasks tid c.TASK_MAX_COUNT 0
  simp only [Nat.cast_zero] at h0
  rw [sched_find_task_index, h0]
  exact scan_loop_found _ tasks _ _ 0 j (by rw [hok]; omega) (Nat.zero_le _)
    (by rw [← hok]; omega) hj (fun k _ hk => hmin k hk)

theorem sched_find_task_index_absent (c : task_config) (tasks : List sched_task) (tid : Nat)
    (hok : table_ok c tasks) (hno : ∀ k, holds_tid tasks tid k = false) :
    sched_find_task_index c tasks tid = some (-1) := by
  have h0 := sched_find_task_index_loop_eq tasks tid c.TASK_MAX_COUNT 0
  simp only [Nat.cast_zero] at h0
  rw [sched_find_task_index, h0]
  exact scan_loop_rest _ tasks _ _ 0 (by rw [hok]; omega) (fun k _ _ => hno k)

/-- The two outcomes of `sched_find_task_index` on a table of the right size. -/
theorem sched_find_task_index_cases (c : task_config) (tasks : List sched_task) (tid : Nat)
    (hok : table_ok c tasks) :
    (∃ j : Nat, j < c.TASK_MAX_COUNT ∧ holds_tid tasks tid j = true ∧
        (∀ k, k < j → holds_tid tasks tid k = false) ∧
        sched_find_task_index c tasks tid = some (j : Int)) ∨
      ((∀ k, holds_tid tasks tid k = false) ∧ sched_find_task_index c tasks tid = some (-1)) := by
  rcases slot_sat_first (fun t => decide (t.tid = tid) && t.is_valid) tasks 0
      c.TASK_MAX_COUNT with ⟨j, _, h2, h3, h4⟩ | hno
  · left
    have hmin : ∀ k, k < j → holds_tid tasks tid k = false := fun k hk => h4 k (Nat.zero_le _) hk
    exact ⟨j, by omega, h3, hmin, sched_find_task_index_found c tasks tid j hok h3 hmin⟩
  · right
    have hall : ∀ k, holds_tid tasks tid k = false := by
      intro k
      by_cases hk : k < c.TASK_MAX_COUNT
      · exact hno k (Nat.zero_le _) (by omega)
      · have : tasks.length ≤ k := by rw [hok]; omega
        simp [holds_tid, List.getElem?_eq_none this]
    exact ⟨hall, sched_find_task_index_absent c tasks tid hok hall⟩

theorem sched_get_free_task_index_found (c : task_config) (tasks : List sched_task) (j : Nat)
    (hok : table_ok c tasks) (hj : free_slot tasks j = true)
    (hmin : ∀ k, k < j → free_slot tasks k = false) :
    sched_get_free_task_index c tasks = some (j : Int) := by
  have hjl : j < tasks.length := by
    by_contra hge
    simp [free_slot, List.getElem?_eq_none (not_lt.mp hge)] at hj
  have h0 := sched_get_free_task_index_loop_eq tasks c.TASK_MAX_COUNT 0
  simp only [Nat.cast_zero] at h0
  rw [sched_get_free_task_index, h0]
  exact scan_loop_found _ tasks _ _ 0 j (by rw [hok]; omega) (Nat.zero_le _)
    (by rw [← hok]; omega) hj (fun k _ hk => hmin k hk)

theorem sched_get_free_task_index_full (c : task_config) (tasks : List sched_task)
    (hok : table_ok c tasks) (hno : ∀ k, free_slot tasks k = false) :
    sched_get_free_task_index c tasks = some (-1) := by
  have h0 := sched_get_free_task_index_loop_eq tasks c.TASK_MAX_COUNT 0
  simp only [Nat.cast_zero] at h0
  rw [sched_get_free_task_index, h0]
  exact scan_loop_rest _ tasks _ _ 0 (by rw [hok]; omega) (fun k _ _ => hno k)

/-- The two outcomes of `sched_get_free_task_index` on a table of the right size. -/
theorem sched_get_free_task_index_cases (c : task_config) (tasks : List sched_task)
    (hok : table_ok c tasks) :
    (∃ j : Nat, j < c.TASK_MAX_COUNT ∧ free_slot tasks j = true ∧
        (∀ k, k < j → free_slot tasks k = false) ∧
        sched_get_free_task_index c tasks = some (j : Int)) ∨
      ((∀ k, free_slot tasks k = false) ∧ sched_get_free_task_index c tasks = some (-1)) := by
  rcases slot_sat_first (fun t => !t.is_valid) tasks 0 c.TASK_MAX_COUNT with
    ⟨j, _, h2, h3, h4⟩ | hno
  · left
    have hmin : ∀ k, k < j → free_slot tasks k = false := fun k hk => h4 k (Nat.zero_le _) hk
    exact ⟨j, by omega, h3, hmin, sched_get_free_task_index_found c tasks j hok h3 hmin⟩
  · right
    have hall : ∀ k, free_slot tasks k = false := by
      intro k
      by_cases hk : k < c.TASK_MAX_COUNT
      · exact hno k (Nat.zero_le _) (by omega)
      · have : tasks.length ≤ k := by rw [hok]; omega
        simp [free_slot, List.getElem?_eq_none this]
    exact ⟨hall, sched_get_free_task_index_full c tasks hok hall⟩

theorem runnable_lt (c : task_config) (tasks : List sched_task) (j : Nat)
    (hok : table_ok c tasks) (hj : runnable c tasks j = true) : j < c.TASK_MAX_COUNT := by
  by_contra hge
  have : tasks.length ≤ j := by rw [hok]; omega
  simp [runnable, List.getElem?_eq_none this] at hj

/-- The selector written with the two loops over natural indices. -/
theorem sched_find_task_to_run_index_eq (c : task_config) (tasks : List sched_task) (i : Nat) :
    sched_find_task_to_run_index c tasks (i : Int)
      = scan_loop (fun t => t.is_valid && decide (t.status = c.TASK_RUNNING)) tasks
          (scan_loop (fun t => t.is_valid && decide (t.status = c.TASK_RUNNING)) tasks
            (some (-1)) (i + 1) 0)
          (c.TASK_MAX_COUNT - (i + 1)) (i + 1) := by
  have e1 : (((i : Int) + 1).toNat) = i + 1 := by omega
  have e2 : (((c.TASK_MAX_COUNT : Int) - ((i : Int) + 1)).toNat) = c.TASK_MAX_COUNT - (i + 1) := by
    omega
  have e3 : ((i : Int) + 1) = ((i + 1 : Nat) : Int) := by omega
  have h0 := sched_find_task_to_run_index_loop_eq c tasks (some (-1)) (i + 1) 0
  simp only [Nat.cast_zero] at h0
  rw [sched_find_task_to_run_index, e1, e2, h0, e3, sched_find_task_to_run_index_loop_eq]

/-- A runnable slot after `i`, the first one, is what the selector returns. -/
theorem sched_find_task_to_run_index_after (c : task_config) (tasks : List sched_task)
    (i j : Nat) (hok : table_ok c tasks) (hij : i < j) (hj : runnable c tasks j = true)
    (hmin : ∀ k, i < k → k < j → runnable c tasks k = false) :
    sched_find_task_to_run_index c tasks (i : Int) = some (j : Int) := by
  have hjN := runnable_lt c tasks j hok hj
  rw [sched_find_task_to_run_index_eq]
  exact scan_loop_found _ tasks _ _ (i + 1) j (by rw [hok]; omega) (by omega) (by omega) hj
    (fun k hk hkj => hmin k (by omega) hkj)

/-- With no runnable slot after `i`, the first runnable slot up to `i` is what the
selector returns. -/
theorem sched_find_task_to_run_index_wrap (c : task_config) (tasks : List sched_task)
    (i j : Nat) (hok : table_ok c tasks) (hi : i < c.TASK_MAX_COUNT)
    (hafter : ∀ k, i < k → runnable c tasks k = false)
    (hji : j ≤ i) (hj : runnable c tasks j = true)
    (hmin : ∀ k, k < j → runnable c tasks k = false) :
    sched_find_task_to_run_index c tasks (i : Int) = some (j : Int) := by
  rw [sched_find_task_to_run_index_eq,
    scan_loop_rest _ tasks _ _ (i + 1) (by rw [hok]; omega) (fun k hk _ => hafter k (by omega))]
  exact scan_loop_found _ tasks _ _ 0 j (by rw [hok]; omega) (Nat.zero_le _) (by omega) hj
    (fun k _ hkj => hmin k hkj)

/-- With no runnable slot at all the selector returns -1. -/
theorem sched_find_task_to_run_index_idle (c : task_config) (tasks : List sched_task)
    (i : Nat) (hok : table_ok c tasks) (hi : i < c.TASK_MAX_COUNT)
    (hno : ∀ k, runnable c tasks k = false) :
    sched_find_task_to_run_index c tasks (i : Int) = some (-1) := by
  rw [sched_find_task_to_run_index_eq,
    scan_loop_rest _ tasks _ _ (i + 1) (by rw [hok]; omega) (fun k _ _ => hno k)]
  exact scan_loop_rest _ tasks _ _ 0 (by rw [hok]; omega) (fun k _ _ => hno k)

/-! ## What the registry operations do -/

theorem write_task_natCast (tasks : List sched_task) (j : Nat) (f : sched_task → sched_task)
    (t : sched_task) (ht : tasks[j]? = some t) :
    write_task tasks (j : Int) f = some (tasks.set j (f t)) := by
  simp [write_task, read_task_natCast, ht]

theorem holds_tid_get (tasks : List sched_task) (tid j : Nat) (h : holds_tid tasks tid j = true) :
    ∃ t, tasks[j]? = some t ∧ t.is_valid = true ∧ t.tid = tid := by
  unfold holds_tid at h
  cases ht : tasks[j]? with
  | none => simp [ht] at h
  | some t =>
    simp only [ht, Bool.and_eq_true, decide_eq_true_eq] at h
    exact ⟨t, rfl, h.2, h.1⟩

theorem free_slot_get (tasks : List sched_task) (j : Nat) (h : free_slot tasks j = true) :
    ∃ t, tasks[j]? = some t ∧ t.is_valid = false := by
  unfold free_slot at h
  cases ht : tasks[j]? with
  | none => simp [ht] at h
  | some t =>
    simp only [ht, Bool.not_eq_true_eq_eq_false] at h
    exact ⟨t, rfl, by simpa using h⟩

/-- The two outcomes of `sched_set_task_status_by_id` on a table of the right size. -/
theorem sched_set_task_status_by_id_cases (c : task_config) (s : sched_state)
    (tid status : Nat) (hok : table_ok c s.tasks) :
    (∃ (j : Nat) (t : sched_task), j < c.TASK_MAX_COUNT ∧
        sched_find_task_index c s.tasks tid = some (j : Int) ∧
        s.tasks[j]? = some t ∧ t.is_valid = true ∧ t.tid = tid ∧
        sched_set_task_status_by_id c s tid status
          = some (true, { s with tasks := s.tasks.set j { t with status := status } })) ∨
      ((∀ k, holds_tid s.tasks tid k = false) ∧
        sched_find_task_index c s.tasks tid = some (-1) ∧
        sched_set_task_status_by_id c s tid status
          = some (false, kprint s kmsg.MSG_SCHED_TID_UNKNOWN)) := by
  rcases sched_find_task_index_cases c s.tasks tid hok with ⟨j, hj, hh, _, hf⟩ | ⟨hno, hf⟩
  · left
    obtain ⟨t, ht, hv, htid⟩ := holds_tid_get s.tasks tid j hh
    refine ⟨j, t, hj, hf, ht, hv, htid, ?_⟩
    have hne : ¬ ((j : Int) = -1) := by omega
    simp only [sched_set_task_status_by_id, hf, hne, if_false,
      write_task_natCast s.tasks j _ t ht]
  · right
    refine ⟨hno, hf, ?_⟩
    simp only [sched_set_task_status_by_id, hf, if_true]

theorem sched_run_task_by_id_eq (c : task_config) (s : sched_state) (tid : Nat) :
    sched_run_task_by_id c s tid = sched_set_task_status_by_id c s tid c.TASK_RUNNING := rfl

theorem sched_stop_task_by_id_eq (c : task_config) (s : sched_state) (tid : Nat) :
    sched_stop_task_by_id c s tid
      = sched_set_task_status_by_id c s tid c.TASK_UNINTERRUPTABLE := rfl

/-- The three outcomes of `sched_create_task` on a table of the right size. -/
theorem sched_create_task_cases (c : task_config) (cpu : cpu_regs) (s : sched_state)
    (tid address : Nat) (hok : table_ok c s.tasks) :
    ((∀ k, free_slot s.tasks k = false) ∧
        sched_create_task c cpu s tid address
          = some (false, { tasks := s.tasks, console := s.console ++
              [kmsg.MSG_SCHED_TID_CREATE address, kmsg.MSG_SCHED_TID_EXCEED] })) ∨
      ((∃ k, free_slot s.tasks k = true) ∧ (∃ k, holds_tid s.tasks tid k = true) ∧
        sched_create_task c cpu s tid address
          = some (false, { tasks := s.tasks, console := s.console ++
              [kmsg.MSG_SCHED_TID_CREATE address, kmsg.MSG_SCHED_TID_EXISTS] })) ∨
      (∃ (j : Nat) (t : sched_task), j < c.TASK_MAX_COUNT ∧ free_slot s.tasks j = true ∧
        (∀ k, k < j → free_slot s.tasks k = false) ∧
        (∀ k, holds_tid s.tasks tid k = false) ∧
        s.tasks[j]? = some t ∧ t.is_valid = false ∧
        sched_create_task c cpu s tid address
          = some (true, { tasks := s.tasks.set j (sched_create_task_fill c cpu tid address j t),
                          console := s.console ++ [kmsg.MSG_SCHED_TID_CREATE address] })) := by
  rcases sched_get_free_task_index_cases c s.tasks hok with ⟨j, hj, hfree, hmin, hg⟩ | ⟨hno, hg⟩
  · right
    have hne : ¬ ((j : Int) = -1) := by omega
    rcases sched_find_task_index_cases c s.tasks tid hok with ⟨i, hi, hh, _, hf⟩ | ⟨hnone, hf⟩
    · left
      refine ⟨⟨j, hfree⟩, ⟨i, hh⟩, ?_⟩
      have hne2 : ¬ ((i : Int) = -1) := by omega
      simp [sched_create_task, kprint, hg, hf, hne, hne2]
    · right
      obtain ⟨t, ht, hv⟩ := free_slot_get s.tasks j hfree
      refine ⟨j, t, hj, hfree, hmin, hnone, ht, hv, ?_⟩
      simp [sched_create_task, kprint, hg, hf, hne, write_task_natCast s.tasks j _ t ht]
  · left
    refine ⟨hno, ?_⟩
    simp [sched_create_task, kprint, hg]

/-- Every outcome of the selector from a starting index inside the table. -/
theorem sched_find_task_to_run_index_cases (c : task_config) (tasks : List sched_task)
    (i : Nat) (hok : table_ok c tasks) (hi : i < c.TASK_MAX_COUNT) :
    (∃ j : Nat, i < j ∧ runnable c tasks j = true ∧
        (∀ k, i < k → k < j → runnable c tasks k = false) ∧
        sched_find_task_to_run_index c tasks (i : Int) = some (j : Int)) ∨
      (∃ j : Nat, j ≤ i ∧ (∀ k, i < k → runnable c tasks k = false) ∧
        runnable c tasks j = true ∧ (∀ k, k < j → runnable c tasks k = false) ∧
        sched_find_task_to_run_index c tasks (i : Int) = some (j : Int)) ∨
      ((∀ k, runnable c tasks k = false) ∧
        sched_find_task_to_run_index c tasks (i : Int) = some (-1)) := by
  have hout : ∀ k, c.TASK_MAX_COUNT ≤ k → runnable c tasks k = false := by
    intro k hk
    have : tasks.length ≤ k := by rw [hok]; omega
    simp [runnable, List.getElem?_eq_none this]
  rcases slot_sat_first (fun t => t.is_valid && decide (t.status = c.TASK_RUNNING)) tasks
      (i + 1) (c.TASK_MAX_COUNT - (i + 1)) with ⟨j, h1, _, h3, h4⟩ | hno
  · left
    have hmin : ∀ k, i < k → k < j → runnable c tasks k = false :=
      fun k hk hkj => h4 k (by omega) hkj
    exact ⟨j, by omega, h3, hmin,
      sched_find_task_to_run_index_after c tasks i j hok (by omega) h3 hmin⟩
  · right
    have hafter : ∀ k, i < k → runnable c tasks k = false := by
      intro k hk
      by_cases hkN : k < c.TASK_MAX_COUNT
      · exact hno k (by omega) (by omega)
      · exact hout k (by omega)
    rcases slot_sat_first (fun t => t.is_valid && decide (t.status = c.TASK_RUNNING)) tasks
        0 (i + 1) with ⟨j, _, h2, h3, h4⟩ | hno2
    · left
      have hmin : ∀ k, k < j → runnable c tasks k = false :=
        fun k hkj => h4 k (Nat.zero_le _) hkj
      exact ⟨j, by omega, hafter, h3, hmin,
        sched_find_task_to_run_index_wrap c tasks i j hok hi hafter (by omega) h3 hmin⟩
    · right
      have hall : ∀ k, runnable c tasks k = false := by
        intro k
        by_cases hk : i < k
        · exact hafter k hk
        · exact hno2 k (Nat.zero_le _) (by omega)
      exact ⟨hall, sched_find_task_to_run_index_idle c tasks i hok hi hall⟩

/-! ## Sequences of calls: what one call does, and what every call keeps -/

/-- What one call of the registry does to a table of the right size: it fails and
leaves the table as it was, or it sets the status of an occupied slot, or it is
a creation that fills the lowest free slot with an id no occupied slot holds. -/
theorem sched_call_exec_cases (c : task_config) (s : sched_state) (call : sched_call)
    (hok : table_ok c s.tasks) :
    ∃ (r : Bool) (s1 : sched_state), call.exec c s = some (r, s1) ∧
      ((r = false ∧ s1.tasks = s.tasks) ∨
        (r = true ∧ call.is_create = false ∧ ∃ (j : Nat) (t : sched_task) (st : Nat),
          j < c.TASK_MAX_COUNT ∧ s.tasks[j]? = some t ∧ t.is_valid = true ∧
          s1.tasks = s.tasks.set j { t with status := st }) ∨
        (r = true ∧ call.is_create = true ∧
          ∃ (cpu : cpu_regs) (tid address j : Nat) (t : sched_task),
          call = sched_call.create cpu tid address ∧
          j < c.TASK_MAX_COUNT ∧ s.tasks[j]? = some t ∧ t.is_valid = false ∧
          (∀ k, k < j → free_slot s.tasks k = false) ∧
          (∀ k, holds_tid s.tasks tid k = false) ∧
          s1.tasks = s.tasks.set j (sched_create_task_fill c cpu tid address j t))) := by
  have key : ∀ tid st : Nat, ∃ (r : Bool) (s1 : sched_state),
      sched_set_task_status_by_id c s tid st = some (r, s1) ∧
      ((r = false ∧ s1.tasks = s.tasks) ∨
        (r = true ∧ ∃ (j : Nat) (t : sched_task) (st : Nat),
          j < c.TASK_MAX_COUNT ∧ s.tasks[j]? = some t ∧ t.is_valid = true ∧
          s1.tasks = s.tasks.set j { t with status := st })) := by
    intro tid st
    rcases sched_set_task_status_by_id_cases c s tid st hok with
      ⟨j, t, hj, _, ht, hv, _, hop⟩ | ⟨_, _, hop⟩
    · exact ⟨true, _, hop, Or.inr ⟨rfl, j, t, st, hj, ht, hv, rfl⟩⟩
    · exact ⟨false, _, hop, Or.inl ⟨rfl, rfl⟩⟩
  cases call with
  | create cpu tid address =>
    rcases sched_create_task_cases c cpu s tid address hok with
      ⟨_, hop⟩ | ⟨_, _, hop⟩ | ⟨j, t, hj, _, hmin, hnone, ht, hv, hop⟩
    · exact ⟨false, _, hop, Or.inl ⟨rfl, rfl⟩⟩
    · exact ⟨false, _, hop, Or.inl ⟨rfl, rfl⟩⟩
    · exact ⟨true, _, hop, Or.inr (Or.inr ⟨rfl, rfl, cpu, tid, address, j, t, rfl, hj, ht, hv,
        hmin, hnone, rfl⟩)⟩
  | run tid =>
    obtain ⟨r, s1, hop, h | ⟨hr, h⟩⟩ := key tid c.TASK_RUNNING
    · exact ⟨r, s1, hop, Or.inl h⟩
    · exact ⟨r, s1, hop, Or.inr (Or.inl ⟨hr, rfl, h⟩)⟩
  | stop tid =>
    obtain ⟨r, s1, hop, h | ⟨hr, h⟩⟩ := key tid c.TASK_UNINTERRUPTABLE
    · exact ⟨r, s1, hop, Or.inl h⟩
    · exact ⟨r, s1, hop, Or.inr (Or.inl ⟨hr, rfl, h⟩)⟩
  | set_status tid status =>
    obtain ⟨r, s1, hop, h | ⟨hr, h⟩⟩ := key tid status
    · exact ⟨r, s1, hop, Or.inl h⟩
    · exact ⟨r, s1, hop, Or.inr (Or.inl ⟨hr, rfl, h⟩)⟩

/-- Uniqueness of ids, stated on the entries read by index. -/
theorem tid_unique_iff (tasks : List sched_task) :
    tid_unique tasks ↔ ∀ (i j : Nat) (ti tj : sched_task), tasks[i]? = some ti →
      tasks[j]? = some tj → ti.is_valid = true → tj.is_valid = true → ti.tid = tj.tid →
      i = j := by
  constructor
  · intro h i j ti tj hi hj vi vj e
    obtain ⟨hil, hie⟩ := List.getElem?_eq_some_iff.1 hi
    obtain ⟨hjl, hje⟩ := List.getElem?_eq_some_iff.1 hj
    have := h ⟨i, hil⟩ ⟨j, hjl⟩ (by simpa [hie] using vi) (by simpa [hje] using vj)
      (by simpa [hie, hje] using e)
    exact Fin.mk.inj this
  · intro h i j vi vj e
    exact Fin.ext (h i.val j.val (tasks.get i) (tasks.get j)
      (by simp) (by simp) vi vj e)

/-- Setting the status of a slot keeps the ids unique. -/
theorem tid_unique_set_status (tasks : List sched_task) (j : Nat) (t : sched_task) (st : Nat)
    (ht : tasks[j]? = some t) (hu : tid_unique tasks) :
    tid_unique (tasks.set j { t with status := st }) := by
  rw [tid_unique_iff] at hu ⊢
  have hjl : j < tasks.length := (List.getElem?_eq_some_iff.1 ht).1
  have old : ∀ (i : Nat) (ti : sched_task), (tasks.set j { t with status := st })[i]? = some ti →
      ∃ ti0, tasks[i]? = some ti0 ∧ ti0.is_valid = ti.is_valid ∧ ti0.tid = ti.tid := by
    intro i ti hi
    by_cases hji : j = i
    · subst hji
      rw [List.getElem?_set_self hjl] at hi
      have := Option.some.inj hi
      subst this
      exact ⟨t, ht, rfl, rfl⟩
    · rw [List.getElem?_set_ne hji] at hi
      exact ⟨ti, hi, rfl, rfl⟩
  intro i1 i2 t1 t2 h1 h2 v1 v2 e
  obtain ⟨a1, ha1, hv1, htid1⟩ := old i1 t1 h1
  obtain ⟨a2, ha2, hv2, htid2⟩ := old i2 t2 h2
  exact hu i1 i2 a1 a2 ha1 ha2 (hv1.trans v1) (hv2.trans v2) (by rw [htid1, htid2, e])

/-- Filling a slot with an id that no occupied slot holds keeps the ids unique. -/
theorem tid_unique_set_new (tasks : List sched_task) (j : Nat) (t t1 : sched_task)
    (ht : tasks[j]? = some t) (hnone : ∀ k, holds_tid tasks t1.tid k = false)
    (hu : tid_unique tasks) : tid_unique (tasks.set j t1) := by
  rw [tid_unique_iff] at hu ⊢
  have hjl : j < tasks.length := (List.getElem?_eq_some_iff.1 ht).1
  have fresh : ∀ (k : Nat) (tk : sched_task), tasks[k]? = some tk → tk.is_valid = true →
      tk.tid ≠ t1.tid := by
    intro k tk hk hv e
    have := hnone k
    simp [holds_tid, hk, hv, e] at this
  intro i1 i2 a1 a2 h1 h2 v1 v2 e
  by_cases c1 : j = i1
  · by_cases c2 : j = i2
    · omega
    · subst c1
      rw [List.getElem?_set_self hjl] at h1
      rw [List.getElem?_set_ne c2] at h2
      have := Option.some.inj h1
      subst this
      exact absurd e.symm (fresh i2 a2 h2 v2)
  · by_cases c2 : j = i2
    · subst c2
      rw [List.getElem?_set_self hjl] at h2
      rw [List.getElem?_set_ne c1] at h1
      have := Option.some.inj h2
      subst this
      exact absurd e (fresh i1 a1 h1 v1)
    · rw [List.getElem?_set_ne c1] at h1
      rw [List.getElem?_set_ne c2] at h2
      exact hu i1 i2 a1 a2 h1 h2 v1 v2 e

/-- One call keeps the size of the table and the uniqueness of the ids, and the
number of occupied slots grows by one exactly when a creation returns true. -/
theorem sched_call_exec_invariant (c : task_config) (s : sched_state) (call : sched_call)
    (hok : table_ok c s.tasks) (hu : tid_unique s.tasks) :
    ∃ (r : Bool) (s1 : sched_state), call.exec c s = some (r, s1) ∧
      table_ok c s1.tasks ∧ tid_unique s1.tasks ∧
      occupied_count s1.tasks
        = occupied_count s.tasks + (if call.is_create && r then 1 else 0) := by
  obtain ⟨r, s1, hop, h⟩ := sched_call_exec_cases c s call hok
  refine ⟨r, s1, hop, ?_⟩
  rcases h with ⟨hr, ht⟩ | ⟨hr, hc, j, t, st, hj, ht, hv, hs⟩ |
    ⟨hr, hc, cpu, tid, address, j, t, _, hj, ht, hv, _, hnone, hs⟩
  · rw [ht, hr]
    exact ⟨hok, hu, by simp⟩
  · have hjl : j < s.tasks.length := by rw [hok]; exact hj
    have hget : s.tasks[j] = t := (List.getElem?_eq_some_iff.1 ht).2
    rw [hs, hc]
    refine ⟨by simpa [table_ok] using hok, tid_unique_set_status s.tasks j t st ht hu, ?_⟩
    have hpos : 0 < List.countP (fun t => t.is_valid) s.tasks :=
      List.countP_pos_iff.2 ⟨t, List.mem_iff_getElem?.2 ⟨j, ht⟩, hv⟩
    simp only [occupied_count, List.countP_set _ _ _ _ hjl, hget, hv, if_true,
      Bool.false_and, Bool.false_eq_true, if_false]
    omega
  · have hjl : j < s.tasks.length := by rw [hok]; exact hj
    have hget : s.tasks[j] = t := (List.getElem?_eq_some_iff.1 ht).2
    rw [hs, hc, hr]
    refine ⟨by simpa [table_ok] using hok,
      tid_unique_set_new s.tasks j t _ ht (by simpa [sched_create_task_fill] using hnone) hu, ?_⟩
    simp [occupied_count, List.countP_set _ _ _ _ hjl, hget, hv, sched_create_task_fill]

/-- A sequence of calls on a table of the right size with unique ids runs to its
end and keeps both; the number of occupied slots grows by the number of
creations that returned true. -/
theorem sched_calls_exec_invariant (c : task_config) (calls : List sched_call)
    (s : sched_state) (hok : table_ok c s.tasks) (hu : tid_unique s.tasks) :
    ∃ s1 : sched_state, sched_calls_exec c s calls = some s1 ∧
      table_ok c s1.tasks ∧ tid_unique s1.tasks ∧
      occupied_count s1.tasks = occupied_count s.tasks + sched_calls_created c s calls := by
  induction calls generalizing s with
  | nil => exact ⟨s, rfl, hok, hu, rfl⟩
  | cons call calls ih =>
    obtain ⟨r, s1, hop, hok1, hu1, hcount⟩ := sched_call_exec_invariant c s call hok hu
    obtain ⟨s2, hrun, hok2, hu2, hcount2⟩ := ih s1 hok1 hu1
    refine ⟨s2, ?_, hok2, hu2, ?_⟩
    · simp only [sched_calls_exec, hop, hrun]
    · simp only [sched_calls_created, hop]
      omega

/-- The table `sched_init` leaves has the right size, no occupied slot, and
therefore unique ids. -/
theorem sched_init_invariant (c : task_config) (s0 : sched_state) :
    table_ok c (sched_init c s0).tasks ∧ tid_unique (sched_init c s0).tasks ∧
      occupied_count (sched_init c s0).tasks = 0 := by
  refine ⟨by simp [table_ok, sched_init], ?_, ?_⟩
  · rw [tid_unique_iff]
    intro i j ti tj hi _ vi _ _
    have hmem : ti ∈ List.replicate c.TASK_MAX_COUNT sched_task_zero :=
      List.mem_iff_getElem?.2 ⟨i, hi⟩
    have := List.eq_of_mem_replicate hmem
    subst this
    exact absurd vi (by decide)
  · simp [occupied_count, sched_init, List.countP_replicate, sched_task_zero]

theorem free_slot_lt (tasks : List sched_task) (k : Nat) (h : free_slot tasks k = true) :
    k < tasks.length := by
  obtain ⟨t, ht, _⟩ := free_slot_get tasks k h
  exact (List.getElem?_eq_some_iff.1 ht).1

theorem free_slot_not_occupied (tasks : List sched_task) (k : Nat)
    (h : free_slot tasks k = true) : occupied tasks k = false := by
  obtain ⟨t, ht, hv⟩ := free_slot_get tasks k h
  simp [occupied, ht, hv]

/-- A table all of whose slots are occupied has no free slot. -/
theorem no_free_slot_of_full (c : task_config) (tasks : List sched_task)
    (hok : table_ok c tasks) (hfull : ∀ k, k < c.TASK_MAX_COUNT → occupied tasks k = true) :
    ∀ k, free_slot tasks k = false := by
  intro k
  by_contra h
  have hf : free_slot tasks k = true := by simpa using h
  have hk : k < c.TASK_MAX_COUNT := by rw [← hok]; exact free_slot_lt tasks k hf
  have h1 := hfull k hk
  rw [free_slot_not_occupied tasks k hf] at h1
  exact absurd h1 (by decide)

/-- When the number of occupied slots is the size of the table, every slot is occupied. -/
theorem occupied_of_count (c : task_config) (tasks : List sched_task) (hok : table_ok c tasks)
    (hcount : occupied_count tasks = c.TASK_MAX_COUNT) :
    ∀ k, k < c.TASK_MAX_COUNT → occupied tasks k = true := by
  intro k hk
  have hall := List.countP_eq_length.1 (hcount.trans hok.symm)
  have hkl : k < tasks.length := by rw [hok]; exact hk
  have hmem : tasks[k] ∈ tasks := List.getElem_mem hkl
  simpa [occupied, List.getElem?_eq_getElem hkl] using hall _ hmem

/-! ## The reference scan -/

theorem range_find_found (q : Nat → Bool) (n i j : Nat) (hij : i ≤ j) (hjn : j < i + n)
    (hj : q j = true) (hmin : ∀ k, i ≤ k → k < j → q k = false) :
    (List.range' i n).find? q = some j := by
  induction n generalizing i with
  | zero => omega
  | succ n ih =>
    rw [List.range'_succ]
    by_cases hqi : q i = true
    · have : ¬ i < j := by
        intro hlt
        rw [hmin i (le_refl i) hlt] at hqi
        exact absurd hqi (by decide)
      have hji : j = i := by omega
      rw [List.find?_cons_of_pos _ hqi, hji]
    · have hne : i ≠ j := by
        rintro rfl
        exact hqi hj
      rw [List.find?_cons_of_neg _ hqi]
      exact ih (i + 1) (by omega) (by omega) (fun k hk hkj => hmin k (by omega) hkj)

theorem range_find_none (q : Nat → Bool) (n i : Nat)
    (hno : ∀ k, i ≤ k → k < i + n → q k = false) :
    (List.range' i n).find? q = none := by
  induction n generalizing i with
  | zero => rfl
  | succ n ih =>
    have hqi : ¬ q i = true := by
      rw [hno i (le_refl i) (by omega)]
      decide
    rw [List.range'_succ, List.find?_cons_of_neg _ hqi]
    exact ih (i + 1) (fun k hk hkn => hno k (by omega) (by omega))

/-- The selector returns what the reference scan gives. -/
theorem sched_find_task_to_run_index_eq_reference (c : task_config)
    (tasks : List sched_task) (i : Nat) (hok : table_ok c tasks)
    (hi : i < c.TASK_MAX_COUNT) :
    sched_find_task_to_run_index c tasks (i : Int)
      = some (two_pass_scan_reference c tasks i) := by
  rcases sched_find_task_to_run_index_cases c tasks i hok hi with
    ⟨j, hij, hj, hmin, h⟩ | ⟨j, hji, hafter, hj, hmin, h⟩ | ⟨hall, h⟩
  · have hjN := runnable_lt c tasks j hok hj
    have e := range_find_found (runnable c tasks) (c.TASK_MAX_COUNT - (i + 1)) (i + 1) j
      (by omega) (by omega) hj (fun k hk hkj => hmin k (by omega) hkj)
    rw [h]
    simp only [two_pass_scan_reference, e]
  · have e1 := range_find_none (runnable c tasks) (c.TASK_MAX_COUNT - (i + 1)) (i + 1)
      (fun k hk _ => hafter k (by omega))
    have e2 := range_find_found (runnable c tasks) (i + 1) 0 j (Nat.zero_le _) (by omega) hj
      (fun k _ hkj => hmin k hkj)
    rw [h]
    simp only [two_pass_scan_reference, e1, e2]
  · have e1 := range_find_none (runnable c tasks) (c.TASK_MAX_COUNT - (i + 1)) (i + 1)
      (fun k _ _ => hall k)
    have e2 := range_find_none (runnable c tasks) (i + 1) 0 (fun k _ _ => hall k)
    rw [h]
    simp only [two_pass_scan_reference, e1, e2]

/-! ## The claims -/

/-- C5: from a starting index `i` inside the table the selector returns the value
of the reference two-pass scan, that is: the first runnable slot after `i` when
there is one, else the first runnable slot among `0 .. i` when there is one,
else -1; and a result that is not negative is the index of an occupied slot
whose status is `TASK_RUNNING`. -/
theorem sched_find_task_to_run_index_two_pass (c : task_config) (tasks : List sched_task)
    (i : Nat) (hok : table_ok c tasks) (hi : i < c.TASK_MAX_COUNT) :
    sched_find_task_to_run_index c tasks (i : Int)
      = some (two_pass_scan_reference c tasks i) ∧
    (∀ j : Nat, i < j → j < c.TASK_MAX_COUNT → runnable c tasks j = true →
        (∀ k, i < k → k < j → runnable c tasks k = false) →
        sched_find_task_to_run_index c tasks (i : Int) = some (j : Int)) ∧
    (∀ j : Nat, (∀ k, i < k → k < c.TASK_MAX_COUNT → runnable c tasks k = false) →
        j ≤ i → runnable c tasks j = true → (∀ k, k < j → runnable c tasks k = false) →
        sched_find_task_to_run_index c tasks (i : Int) = some (j : Int)) ∧
    ((∀ k, k < c.TASK_MAX_COUNT → runnable c tasks k = false) →
        sched_find_task_to_run_index c tasks (i : Int) = some (-1)) ∧
    (∀ r : Int, sched_find_task_to_run_index c tasks (i : Int) = some r → 0 ≤ r →
        ∃ j : Nat, r = (j : Int) ∧ j < c.TASK_MAX_COUNT ∧ runnable c tasks j = true) := by
  have hout : ∀ k, c.TASK_MAX_COUNT ≤ k → runnable c tasks k = false := by
    intro k hk
    have : tasks.length ≤ k := by rw [hok]; omega
    simp [runnable, List.getElem?_eq_none this]
  have hext : (∀ k, k < c.TASK_MAX_COUNT → runnable c tasks k = false) →
      ∀ k, runnable c tasks k = false := by
    intro h k
    by_cases hk : k < c.TASK_MAX_COUNT
    · exact h k hk
    · exact hout k (by omega)
  refine ⟨?_, ?_, ?_, ?_, ?_⟩
  · exact sched_find_task_to_run_index_eq_reference c tasks i hok hi
  · intro j hij _ hj hmin
    exact sched_find_task_to_run_index_after c tasks i j hok hij hj hmin
  · intro j hafter hji hj hmin
    refine sched_find_task_to_run_index_wrap c tasks i j hok hi ?_ hji hj hmin
    intro k hk
    by_cases hkN : k < c.TASK_MAX_COUNT
    · exact hafter k hk hkN
    · exact hout k (by omega)
  · intro hno
    exact sched_find_task_to_run_index_idle c tasks i hok hi (hext hno)
  · intro r hr hr0
    rcases sched_find_task_to_run_index_cases c tasks i hok hi with
      ⟨j, _, hj, _, h⟩ | ⟨j, _, _, hj, _, h⟩ | ⟨_, h⟩
    · rw [h] at hr
      exact ⟨j, (Option.some.inj hr).symm, runnable_lt c tasks j hok hj, hj⟩
    · rw [h] at hr
      exact ⟨j, (Option.some.inj hr).symm, runnable_lt c tasks j hok hj, hj⟩
    · rw [h] at hr
      have := Option.some.inj hr
      omega

/-- Witness of C5: in the table whose slots 0 and 2 are runnable the selector goes
from 0 to 2 (first pass), from 2 back to 0 (second pass), and in the table with
no runnable slot it returns -1. -/
theorem sched_find_task_to_run_index_two_pass_witness :
    table_ok example_config example_run_table ∧ 0 < example_config.TASK_MAX_COUNT ∧
    sched_find_task_to_run_index example_config example_run_table ((0 : Nat) : Int)
      = some ((2 : Nat) : Int) ∧
    sched_find_task_to_run_index example_config example_run_table ((2 : Nat) : Int)
      = some ((0 : Nat) : Int) ∧
    sched_find_task_to_run_index example_config example_idle_table ((1 : Nat) : Int)
      = some (-1) ∧
    sched_find_task_to_run_index example_config example_run_table ((1 : Nat) : Int)
      = some (two_pass_scan_reference example_config example_run_table 1) ∧
    two_pass_scan_reference example_config example_run_table 1 = 2 :=
  ⟨by decide, by decide,
    (sched_find_task_to_run_index_two_pass example_config example_run_table 0
      (by decide) (by decide)).2.1 2 (by decide) (by decide) (by decide)
      (by intro k h1 h2; interval_cases k; rfl),
    (sched_find_task_to_run_index_two_pass example_config example_run_table 2
      (by decide) (by decide)).2.2.1 0
      (by intro k h1 h2; exfalso; simp only [example_config] at h2; omega)
      (by decide) (by decide) (by intro k h; omega),
    (sched_find_task_to_run_index_two_pass example_config example_idle_table 1
      (by decide) (by decide)).2.2.2.1 (by decide),
    (sched_find_task_to_run_index_two_pass example_config example_run_table 1
      (by decide) (by decide)).1,
    by decide⟩

/-- C7: when no slot is occupied and `TASK_RUNNING`, the selector returns -1 from
every starting index inside the table; when some slot is, it returns from every
such index a value that is not -1. -/
theorem sched_find_task_to_run_index_idle_iff (c : task_config) (tasks : List sched_task)
    (hok : table_ok c tasks) :
    ((∀ k, k < c.TASK_MAX_COUNT → runnable c tasks k = false) →
        ∀ i : Nat, i < c.TASK_MAX_COUNT →
          sched_find_task_to_run_index c tasks (i : Int) = some (-1)) ∧
    ((∃ k, k < c.TASK_MAX_COUNT ∧ runnable c tasks k = true) →
        ∀ i : Nat, i < c.TASK_MAX_COUNT →
          ∃ r : Int, sched_find_task_to_run_index c tasks (i : Int) = some r ∧ r ≠ -1) := by
  constructor
  · intro hno i hi
    refine sched_find_task_to_run_index_idle c tasks i hok hi ?_
    intro k
    by_cases hk : k < c.TASK_MAX_COUNT
    · exact hno k hk
    · by_contra hr
      exact hk (runnable_lt c tasks k hok (by simpa using hr))
  · rintro ⟨k, _, hk⟩ i hi
    rcases sched_find_task_to_run_index_cases c tasks i hok hi with
      ⟨j, _, _, _, h⟩ | ⟨j, _, _, _, _, h⟩ | ⟨hall, _⟩
    · exact ⟨j, h, by omega⟩
    · exact ⟨j, h, by omega⟩
    · rw [hall k] at hk
      exact absurd hk (by decide)

/-- Witness of C7: the all-blocked table is idle from index 2, and the table with
runnable slots 0 and 2 yields a result other than -1 from index 1. -/
theorem sched_find_task_to_run_index_idle_iff_witness :
    table_ok example_config example_idle_table ∧
    sched_find_task_to_run_index example_config example_idle_table ((2 : Nat) : Int)
      = some (-1) ∧
    table_ok example_config example_run_table ∧
    (∃ r : Int, sched_find_task_to_run_index example_config example_run_table ((1 : Nat) : Int)
      = some r ∧ r ≠ -1) :=
  ⟨by decide,
    (sched_find_task_to_run_index_idle_iff example_config example_idle_table (by decide)).1
      (by decide) 2 (by decide),
    by decide,
    (sched_find_task_to_run_index_idle_iff example_config example_run_table (by decide)).2
      ⟨0, by decide, by decide⟩ 1 (by decide)⟩

/-- C8: `sched_find_task_index` returns -1 exactly when no occupied slot holds the
id; otherwise it returns the lowest index of an occupied slot holding the id,
and `sched_get_task_by_index` at that index gives an occupied entry with that
id; the index of a slot that is not occupied is never returned. -/
theorem sched_find_task_index_spec (c : task_config) (tasks : List sched_task) (tid : Nat)
    (hok : table_ok c tasks) :
    (sched_find_task_index c tasks tid = some (-1) ↔
        ∀ k, k < c.TASK_MAX_COUNT → holds_tid tasks tid k = false) ∧
    ((∃ k, k < c.TASK_MAX_COUNT ∧ holds_tid tasks tid k = true) →
        ∃ j : Nat, j < c.TASK_MAX_COUNT ∧
          sched_find_task_index c tasks tid = some (j : Int) ∧
          holds_tid tasks tid j = true ∧ (∀ k, k < j → holds_tid tasks tid k = false) ∧
          ∃ t, sched_get_task_by_index tasks (j : Int) = some t ∧
            t.is_valid = true ∧ t.tid = tid) ∧
    (∀ (j : Nat) (t : sched_task), tasks[j]? = some t → t.is_valid = false →
        sched_find_task_index c tasks tid ≠ some (j : Int)) := by
  rcases sched_find_task_index_cases c tasks tid hok with ⟨j, hj, hh, hmin, hf⟩ | ⟨hno, hf⟩
  · obtain ⟨t, ht, hv, htid⟩ := holds_tid_get tasks tid j hh
    refine ⟨?_, ?_, ?_⟩
    · constructor
      · intro h
        rw [hf] at h
        have := Option.some.inj h
        omega
      · intro h
        rw [h j hj] at hh
        exact absurd hh (by decide)
    · intro _
      exact ⟨j, hj, hf, hh, hmin, t, by simp [sched_get_task_by_index, read_task_natCast, ht],
        hv, htid⟩
    · intro j2 t2 ht2 hv2 h
      rw [hf] at h
      have hjj : j = j2 := by
        have := Option.some.inj h
        omega
      subst hjj
      rw [ht] at ht2
      have := Option.some.inj ht2
      subst this
      rw [hv] at hv2
      exact absurd hv2 (by decide)
  · refine ⟨?_, ?_, ?_⟩
    · exact ⟨fun _ k _ => hno k, fun _ => hf⟩
    · rintro ⟨k, _, hk⟩
      rw [hno k] at hk
      exact absurd hk (by decide)
    · intro j2 t2 _ _ h
      rw [hf] at h
      have := Option.some.inj h
      omega

/-- Witness of C8: slot 0 is free with the stale id 7, slot 1 is occupied with id
7: the search for 7 returns 1, and the search for the absent id 5 returns -1. -/
theorem sched_find_task_index_spec_witness :
    table_ok example_config example_stale_table ∧
    (∃ j : Nat, j < example_config.TASK_MAX_COUNT ∧
      sched_find_task_index example_config example_stale_table 7 = some (j : Int) ∧
      holds_tid example_stale_table 7 j = true ∧
      (∀ k, k < j → holds_tid example_stale_table 7 k = false) ∧
      ∃ t, sched_get_task_by_index example_stale_table (j : Int) = some t ∧
        t.is_valid = true ∧ t.tid = 7) ∧
    sched_find_task_index example_config example_stale_table 5 = some (-1) :=
  ⟨by decide,
    (sched_find_task_index_spec example_config example_stale_table 7 (by decide)).2.1
      ⟨1, by decide, by decide⟩,
    (sched_find_task_index_spec example_config example_stale_table 5 (by decide)).1.2
      (by decide)⟩

/-- One step of the rotation over the sorted list of the runnable slots. -/
theorem sched_find_task_to_run_index_next (c : task_config) (tasks : List sched_task)
    (R : List Nat) (hok : table_ok c tasks) (hsorted : R.Sorted (· < ·))
    (hmem : ∀ j, j ∈ R ↔ runnable c tasks j = true) (k : Nat) (hk : k < R.length) :
    sched_find_task_to_run_index c tasks ((R.get ⟨k, hk⟩ : Nat) : Int)
      = some ((R.get ⟨(k + 1) % R.length, Nat.mod_lt _ (Nat.zero_lt_of_lt hk)⟩ : Nat) : Int) := by
  have hmono : StrictMono R.get := hsorted.get_strictMono
  have ha : runnable c tasks (R.get ⟨k, hk⟩) = true := (hmem _).1 (List.get_mem R k hk)
  have hidx : ∀ m, runnable c tasks m = true → ∃ x : Fin R.length, R.get x = m :=
    fun m hm => List.get_of_mem ((hmem m).2 hm)
  by_cases hk1 : k + 1 < R.length
  · have e : (⟨(k + 1) % R.length, Nat.mod_lt _ (Nat.zero_lt_of_lt hk)⟩ : Fin R.length)
        = ⟨k + 1, hk1⟩ := Fin.ext (Nat.mod_eq_of_lt hk1)
    rw [e]
    have hb : runnable c tasks (R.get ⟨k + 1, hk1⟩) = true :=
      (hmem _).1 (List.get_mem R (k + 1) hk1)
    have hab : R.get ⟨k, hk⟩ < R.get ⟨k + 1, hk1⟩ := hmono (Fin.mk_lt_mk.2 (Nat.lt_succ_self k))
    refine sched_find_task_to_run_index_after c tasks _ _ hok hab hb ?_
    intro m h1 h2
    by_contra hm
    obtain ⟨x, hx⟩ := hidx m (by simpa using hm)
    rw [← hx] at h1 h2
    have l1 := hmono.lt_iff_lt.1 h1
    have l2 := hmono.lt_iff_lt.1 h2
    have l1v : k < x.val := l1
    have l2v : x.val < k + 1 := l2
    omega
  · have hlen : k + 1 = R.length := by omega
    have e : (⟨(k + 1) % R.length, Nat.mod_lt _ (Nat.zero_lt_of_lt hk)⟩ : Fin R.length)
        = ⟨0, Nat.zero_lt_of_lt hk⟩ := Fin.ext (by simp [hlen])
    rw [e]
    have hb : runnable c tasks (R.get ⟨0, Nat.zero_lt_of_lt hk⟩) = true :=
      (hmem _).1 (List.get_mem R 0 _)
    have hba : R.get ⟨0, Nat.zero_lt_of_lt hk⟩ ≤ R.get ⟨k, hk⟩ :=
      hmono.monotone (Fin.mk_le_mk.2 (Nat.zero_le k))
    refine sched_find_task_to_run_index_wrap c tasks _ _ hok
      (runnable_lt c tasks _ hok ha) ?_ hba hb ?_
    · intro m h1
      by_contra hm
      obtain ⟨x, hx⟩ := hidx m (by simpa using hm)
      rw [← hx] at h1
      have l1 := hmono.lt_iff_lt.1 h1
      have l1v : k < x.val := l1
      have := x.isLt
      omega
    · intro m h1
      by_contra hm
      obtain ⟨x, hx⟩ := hidx m (by simpa using hm)
      rw [← hx] at h1
      have l1 := hmono.lt_iff_lt.1 h1
      have l1v : x.val < 0 := l1
      omega

/-- C6: when `R` lists the occupied `TASK_RUNNING` slots in increasing order, the
selector started at the `k`-th of them returns the next one, cyclically, and
`n` calls, each from the last result, lead from the `k`-th to the
`(k + n) mod N`-th of them. -/
theorem sched_find_task_to_run_index_round_robin (c : task_config) (tasks : List sched_task)
    (R : List Nat) (hok : table_ok c tasks) (hsorted : R.Sorted (· < ·))
    (hmem : ∀ j, j ∈ R ↔ (j < c.TASK_MAX_COUNT ∧ runnable c tasks j = true))
    (k : Nat) (hk : k < R.length) :
    sched_find_task_to_run_index c tasks ((R.get ⟨k, hk⟩ : Nat) : Int)
      = some ((R.get ⟨(k + 1) % R.length, Nat.mod_lt _ (Nat.zero_lt_of_lt hk)⟩ : Nat) : Int) ∧
    ∀ n : Nat, sched_find_task_to_run_index_iterate c tasks n ((R.get ⟨k, hk⟩ : Nat) : Int)
      = some ((R.get ⟨(k + n) % R.length, Nat.mod_lt _ (Nat.zero_lt_of_lt hk)⟩ : Nat) : Int) := by
  have hmem2 : ∀ j, j ∈ R ↔ runnable c tasks j = true :=
    fun j => ⟨fun h => ((hmem j).1 h).2, fun h => (hmem j).2 ⟨runnable_lt c tasks j hok h, h⟩⟩
  refine ⟨sched_find_task_to_run_index_next c tasks R hok hsorted hmem2 k hk, ?_⟩
  intro n
  induction n generalizing k with
  | zero =>
    have e : (⟨(k + 0) % R.length, Nat.mod_lt _ (Nat.zero_lt_of_lt hk)⟩ : Fin R.length)
        = ⟨k, hk⟩ := Fin.ext (Nat.mod_eq_of_lt hk)
    rw [e]
    rfl
  | succ n ih =>
    have hpos : 0 < R.length := Nat.zero_lt_of_lt hk
    have hstep := sched_find_task_to_run_index_next c tasks R hok hsorted hmem2 k hk
    simp only [sched_find_task_to_run_index_iterate, hstep]
    rw [ih ((k + 1) % R.length) (Nat.mod_lt _ hpos)]
    have e : (⟨((k + 1) % R.length + n) % R.length, Nat.mod_lt _ hpos⟩ : Fin R.length)
        = ⟨(k + (n + 1)) % R.length, Nat.mod_lt _ hpos⟩ :=
      Fin.ext (by simp only [Nat.mod_add_mod]; congr 1; omega)
    rw [e]

/-- The runnable slots of the example table are 0 and 2. -/
theorem example_run_table_runnable (j : Nat) :
    j ∈ [0, 2] ↔ (j < example_config.TASK_MAX_COUNT ∧
      runnable example_config example_run_table j = true) := by
  by_cases hj : j < 3
  · interval_cases j <;> decide
  · have h1 : ¬ j < example_config.TASK_MAX_COUNT := hj
    have h2 : j ∉ [0, 2] := by
      simp only [List.mem_cons, List.mem_singleton, List.not_mem_nil, or_false]
      omega
    exact ⟨fun h => absurd h h2, fun h => absurd h.1 h1⟩

/-- Witness of C6: with runnable slots 0 and 2 the selector goes from 2 to 0 and
from 0 to 2, and three calls from 0 end at 2. -/
theorem sched_find_task_to_run_index_round_robin_witness :
    table_ok example_config example_run_table ∧
    sched_find_task_to_run_index example_config example_run_table ((2 : Nat) : Int)
      = some ((0 : Nat) : Int) ∧
    sched_find_task_to_run_index_iterate example_config example_run_table 3 ((0 : Nat) : Int)
      = some ((2 : Nat) : Int) :=
  ⟨by decide,
    (sched_find_task_to_run_index_round_robin example_config example_run_table [0, 2]
      (by decide) (by decide) example_run_table_runnable 1 (by decide)).1,
    (sched_find_task_to_run_index_round_robin example_config example_run_table [0, 2]
      (by decide) (by decide) example_run_table_runnable 0 (by decide)).2 3⟩

/-- C9: `sched_set_task_status_by_id` returns false exactly when no occupied slot
holds the id, and then the table is unchanged; otherwise it returns true and the
slot found by `sched_find_task_index` has the given status afterwards. -/
theorem sched_set_task_status_by_id_spec (c : task_config) (s : sched_state)
    (tid status : Nat) (hok : table_ok c s.tasks) :
    ∃ (r : Bool) (s1 : sched_state),
      sched_set_task_status_by_id c s tid status = some (r, s1) ∧
      (r = false ↔ ∀ k, k < c.TASK_MAX_COUNT → holds_tid s.tasks tid k = false) ∧
      (r = false → s1.tasks = s.tasks) ∧
      (r = true → ∃ (j : Nat) (t : sched_task),
        sched_find_task_index c s.tasks tid = some (j : Int) ∧
        s1.tasks[j]? = some t ∧ t.status = status) := by
  rcases sched_set_task_status_by_id_cases c s tid status hok with
    ⟨j, t, hj, hf, ht, hv, htid, hop⟩ | ⟨hno, _, hop⟩
  · refine ⟨true, _, hop, ?_, ?_, ?_⟩
    · constructor
      · intro h; exact absurd h (by decide)
      · intro h
        have hh : holds_tid s.tasks tid j = true := by
          simp [holds_tid, ht, hv, htid]
        rw [h j hj] at hh
        exact absurd hh (by decide)
    · intro h; exact absurd h (by decide)
    · intro _
      have hjl : j < s.tasks.length := by rw [hok]; exact hj
      exact ⟨j, { t with status := status }, hf, List.getElem?_set_self hjl, rfl⟩
  · refine ⟨false, _, hop, ?_, ?_, ?_⟩
    · exact ⟨fun _ k _ => hno k, fun _ => rfl⟩
    · intro _; rfl
    · intro h; exact absurd h (by decide)

/-- Witness of C9: on the table whose slot 1 holds id 7, setting the status of 7
to 5 and setting the status of the absent id 4. -/
theorem sched_set_task_status_by_id_spec_witness :
    table_ok example_config example_stale_table ∧
    (∃ (r : Bool) (s1 : sched_state),
      sched_set_task_status_by_id example_config
        { tasks := example_stale_table, console := [] } 7 5 = some (r, s1) ∧
      (r = false ↔ ∀ k, k < example_config.TASK_MAX_COUNT →
        holds_tid example_stale_table 7 k = false) ∧
      (r = false → s1.tasks = example_stale_table) ∧
      (r = true → ∃ (j : Nat) (t : sched_task),
        sched_find_task_index example_config example_stale_table 7 = some (j : Int) ∧
        s1.tasks[j]? = some t ∧ t.status = 5)) ∧
    sched_set_task_status_by_id example_config
        { tasks := example_stale_table, console := [] } 7 5
      = some (true, { tasks := [example_task 7 1 false, example_task 7 5 true,
                                example_task 9 1 true], console := [] }) ∧
    sched_set_task_status_by_id example_config
        { tasks := example_stale_table, console := [] } 4 5
      = some (false, { tasks := example_stale_table,
                       console := [kmsg.MSG_SCHED_TID_UNKNOWN] }) :=
  ⟨by decide,
    sched_set_task_status_by_id_spec example_config
      { tasks := example_stale_table, console := [] } 7 5 (by decide),
    by decide, by decide⟩

/-- C10: a call of `sched_set_task_status_by_id`, `sched_run_task_by_id` or
`sched_stop_task_by_id` returns, keeps the number of slots, leaves every slot
other than the one `sched_find_task_index` returns for the id as it was, and
changes no field other than `status` in any slot. -/
theorem sched_status_calls_frame (c : task_config) (s : sched_state) (tid status : Nat)
    (call : sched_call) (hok : table_ok c s.tasks)
    (hcall : call = sched_call.set_status tid status ∨ call = sched_call.run tid ∨
      call = sched_call.stop tid) :
    ∃ (r : Bool) (s1 : sched_state), call.exec c s = some (r, s1) ∧
      s1.tasks.length = s.tasks.length ∧
      (∀ k : Nat, sched_find_task_index c s.tasks tid ≠ some (k : Int) →
        s1.tasks[k]? = s.tasks[k]?) ∧
      (∀ (k : Nat) (t t1 : sched_task), s.tasks[k]? = some t → s1.tasks[k]? = some t1 →
        t1 = { t with status := t1.status }) := by
  have key : ∀ st : Nat, ∃ (r : Bool) (s1 : sched_state),
      sched_set_task_status_by_id c s tid st = some (r, s1) ∧
      s1.tasks.length = s.tasks.length ∧
      (∀ k : Nat, sched_find_task_index c s.tasks tid ≠ some (k : Int) →
        s1.tasks[k]? = s.tasks[k]?) ∧
      (∀ (k : Nat) (t t1 : sched_task), s.tasks[k]? = some t → s1.tasks[k]? = some t1 →
        t1 = { t with status := t1.status }) := by
    intro st
    rcases sched_set_task_status_by_id_cases c s tid st hok with
      ⟨j, t, hj, hf, ht, _, _, hop⟩ | ⟨_, _, hop⟩
    · refine ⟨true, _, hop, by simp, ?_, ?_⟩
      · intro k hk
        have hjk : j ≠ k := by
          rintro rfl
          exact hk hf
        exact List.getElem?_set_ne hjk
      · intro k t0 t1 h0 h1
        by_cases hjk : j = k
        · subst hjk
          have hjl : j < s.tasks.length := by rw [hok]; exact hj
          simp only [List.getElem?_set_self hjl] at h1
          rw [ht] at h0
          have e0 := Option.some.inj h0
          have e1 := Option.some.inj h1
          subst e0
          subst e1
          rfl
        · simp only [List.getElem?_set_ne hjk] at h1
          rw [h0] at h1
          have e1 := Option.some.inj h1
          subst e1
          rfl
    · refine ⟨false, _, hop, rfl, fun _ _ => rfl, ?_⟩
      intro k t0 t1 h0 h1
      simp only [kprint] at h1
      rw [h0] at h1
      have e1 := Option.some.inj h1
      subst e1
      rfl
  rcases hcall with h | h | h
  · subst h; exact key status
  · subst h; exact key c.TASK_RUNNING
  · subst h; exact key c.TASK_UNINTERRUPTABLE

/-- Witness of C10: stopping the task with id 9, which sits in slot 2. -/
theorem sched_status_calls_frame_witness :
    table_ok example_config example_stale_table ∧
    (∃ (r : Bool) (s1 : sched_state),
      (sched_call.stop 9).exec example_config
        { tasks := example_stale_table, console := [] } = some (r, s1) ∧
      s1.tasks.length = example_stale_table.length ∧
      (∀ k : Nat, sched_find_task_index example_config example_stale_table 9 ≠ some (k : Int) →
        s1.tasks[k]? = example_stale_table[k]?) ∧
      (∀ (k : Nat) (t t1 : sched_task), example_stale_table[k]? = some t →
        s1.tasks[k]? = some t1 → t1 = { t with status := t1.status })) ∧
    (sched_call.stop 9).exec example_config { tasks := example_stale_table, console := [] }
      = some (true, { tasks := [example_task 7 1 false, example_task 7 0 true,
                                example_task 9 0 true], console := [] }) :=
  ⟨by decide,
    sched_status_calls_frame example_config { tasks := example_stale_table, console := [] }
      9 0 (sched_call.stop 9) (by decide) (Or.inr (Or.inr rfl)),
    by decide⟩

/-- C1: after `sched_init`, every finite sequence of `sched_create_task`,
`sched_run_task_by_id`, `sched_stop_task_by_id` and `sched_set_task_status_by_id`
calls, whatever their arguments, runs to its end and leaves a table in which no
two distinct occupied slots hold the same id. -/
theorem sched_tid_unique_invariant (c : task_config) (s0 : sched_state)
    (calls : List sched_call) :
    ∃ s1 : sched_state, sched_calls_exec c (sched_init c s0) calls = some s1 ∧
      tid_unique s1.tasks := by
  obtain ⟨hok, hu, _⟩ := sched_init_invariant c s0
  obtain ⟨s1, hrun, _, hu1, _⟩ := sched_calls_exec_invariant c calls (sched_init c s0) hok hu
  exact ⟨s1, hrun, hu1⟩

/-- Counterexample to C2: three creations after `sched_init` fill the table of
three slots, slot 1 holding id 2; creating id 2 again then returns false with
the capacity diagnostic, and the diagnostic for an existing id is not printed. -/
theorem sched_create_task_full_table_counterexample :
    sched_calls_exec example_config
        (sched_init example_config { tasks := [], console := [] }) example_calls
      = some example_full_state ∧
    table_ok example_config example_full_state.tasks ∧
    holds_tid example_full_state.tasks 2 1 = true ∧
    sched_create_task example_config example_cpu example_full_state 2 4096
      = some (false, { tasks := example_full_state.tasks,
                       console := example_full_state.console ++
                         [kmsg.MSG_SCHED_TID_CREATE 4096, kmsg.MSG_SCHED_TID_EXCEED] }) ∧
    ¬ ∃ s1 : sched_state,
      sched_create_task example_config example_cpu example_full_state 2 4096
        = some (false, s1) ∧
      s1.console = example_full_state.console ++
        [kmsg.MSG_SCHED_TID_CREATE 4096, kmsg.MSG_SCHED_TID_EXISTS] := by
  refine ⟨by decide, by decide, by decide, by decide, ?_⟩
  rintro ⟨s1, h1, h2⟩
  have h3 : sched_create_task example_config example_cpu example_full_state 2 4096
      = some (false, { tasks := example_full_state.tasks,
                       console := example_full_state.console ++
                         [kmsg.MSG_SCHED_TID_CREATE 4096, kmsg.MSG_SCHED_TID_EXCEED] }) := by
    decide
  rw [h3] at h1
  have h4 := (Prod.mk.inj (Option.some.inj h1)).2
  subst h4
  revert h2
  decide

/-- C2, amended: when the id already occupies a slot, `sched_create_task` returns
false and leaves the table as it was; it prints the diagnostic for an existing
id when the table has a free slot, and the one for exceeded capacity when the
table is full. -/
theorem sched_create_task_duplicate (c : task_config) (cpu : cpu_regs) (s : sched_state)
    (tid address : Nat) (hok : table_ok c s.tasks)
    (hdup : ∃ k, k < c.TASK_MAX_COUNT ∧ holds_tid s.tasks tid k = true) :
    ((∃ k, k < c.TASK_MAX_COUNT ∧ free_slot s.tasks k = true) →
      sched_create_task c cpu s tid address
        = some (false, { tasks := s.tasks, console := s.console ++
            [kmsg.MSG_SCHED_TID_CREATE address, kmsg.MSG_SCHED_TID_EXISTS] })) ∧
    ((∀ k, k < c.TASK_MAX_COUNT → free_slot s.tasks k = false) →
      sched_create_task c cpu s tid address
        = some (false, { tasks := s.tasks, console := s.console ++
            [kmsg.MSG_SCHED_TID_CREATE address, kmsg.MSG_SCHED_TID_EXCEED] })) := by
  obtain ⟨kd, _, hkd⟩ := hdup
  rcases sched_create_task_cases c cpu s tid address hok with
    ⟨hfull, hop⟩ | ⟨⟨kf, hkf⟩, _, hop⟩ | ⟨j, t, _, _, _, hnone, _, _, _⟩
  · refine ⟨?_, fun _ => hop⟩
    rintro ⟨k, _, hk⟩
    rw [hfull k] at hk
    exact absurd hk (by decide)
  · refine ⟨fun _ => hop, ?_⟩
    intro hno
    have hlt : kf < c.TASK_MAX_COUNT := by rw [← hok]; exact free_slot_lt s.tasks kf hkf
    rw [hno kf hlt] at hkf
    exact absurd hkf (by decide)
  · rw [hnone kd] at hkd
    exact absurd hkd (by decide)

/-- Witness of C2, amended: id 7 sits in slot 1 and slot 0 is free, so the
diagnostic is the one for an existing id; in the full table it is the one for
exceeded capacity. -/
theorem sched_create_task_duplicate_witness :
    table_ok example_config example_stale_table ∧
    (∃ k, k < example_config.TASK_MAX_COUNT ∧ holds_tid example_stale_table 7 k = true) ∧
    sched_create_task example_config example_cpu
        { tasks := example_stale_table, console := [] } 7 4096
      = some (false, { tasks := example_stale_table, console := [] ++
          [kmsg.MSG_SCHED_TID_CREATE 4096, kmsg.MSG_SCHED_TID_EXISTS] }) ∧
    sched_create_task example_config example_cpu
        { tasks := example_idle_table, console := [] } 2 4096
      = some (false, { tasks := example_idle_table, console := [] ++
          [kmsg.MSG_SCHED_TID_CREATE 4096, kmsg.MSG_SCHED_TID_EXCEED] }) :=
  ⟨by decide, ⟨1, by decide, by decide⟩,
    (sched_create_task_duplicate example_config example_cpu
      { tasks := example_stale_table, console := [] } 7 4096 (by decide)
      ⟨1, by decide, by decide⟩).1 ⟨0, by decide, by decide⟩,
    (sched_create_task_duplicate example_config example_cpu
      { tasks := example_idle_table, console := [] } 2 4096 (by decide)
      ⟨1, by decide, by decide⟩).2 (by decide)⟩

/-- C3: on a table all of whose slots are occupied, `sched_create_task` returns
false for every id and entry point, prints the capacity diagnostic and leaves
the table as it was; and after `sched_init`, a sequence of registry calls in
which `TASK_MAX_COUNT` creations returned true leaves such a table, so that
every further creation fails in this way. -/
theorem sched_create_task_capacity (c : task_config) (cpu : cpu_regs) (tid address : Nat) :
    (∀ s : sched_state, table_ok c s.tasks →
      (∀ k, k < c.TASK_MAX_COUNT → occupied s.tasks k = true) →
      sched_create_task c cpu s tid address
        = some (false, { tasks := s.tasks, console := s.console ++
            [kmsg.MSG_SCHED_TID_CREATE address, kmsg.MSG_SCHED_TID_EXCEED] })) ∧
    (∀ (s0 : sched_state) (calls : List sched_call),
      sched_calls_created c (sched_init c s0) calls = c.TASK_MAX_COUNT →
      ∃ s : sched_state, sched_calls_exec c (sched_init c s0) calls = some s ∧
        (∀ k, k < c.TASK_MAX_COUNT → occupied s.tasks k = true) ∧
        sched_create_task c cpu s tid address
          = some (false, { tasks := s.tasks, console := s.console ++
              [kmsg.MSG_SCHED_TID_CREATE address, kmsg.MSG_SCHED_TID_EXCEED] })) := by
  have full : ∀ s : sched_state, table_ok c s.tasks →
      (∀ k, k < c.TASK_MAX_COUNT → occupied s.tasks k = true) →
      sched_create_task c cpu s tid address
        = some (false, { tasks := s.tasks, console := s.console ++
            [kmsg.MSG_SCHED_TID_CREATE address, kmsg.MSG_SCHED_TID_EXCEED] }) := by
    intro s hok hfull
    have hno := no_free_slot_of_full c s.tasks hok hfull
    rcases sched_create_task_cases c cpu s tid address hok with
      ⟨_, hop⟩ | ⟨⟨kf, hkf⟩, _, _⟩ | ⟨j, t, _, hfree, _, _, _, _, _⟩
    · exact hop
    · rw [hno kf] at hkf
      exact absurd hkf (by decide)
    · rw [hno j] at hfree
      exact absurd hfree (by decide)
  refine ⟨full, ?_⟩
  intro s0 calls hcreated
  obtain ⟨hok, hu, h0⟩ := sched_init_invariant c s0
  obtain ⟨s, hrun, hok1, _, hcount⟩ :=
    sched_calls_exec_invariant c calls (sched_init c s0) hok hu
  have hfull := occupied_of_count c s.tasks hok1 (by rw [hcount, h0, hcreated]; omega)
  exact ⟨s, hrun, hfull, full s hok1 hfull⟩

/-- Witness of C3: a creation on the full example table, and a creation after a
sequence of calls from `sched_init` in which three creations succeeded. -/
theorem sched_create_task_capacity_witness :
    table_ok example_config example_idle_table ∧
    (∀ k, k < example_config.TASK_MAX_COUNT → occupied example_idle_table k = true) ∧
    sched_create_task example_config example_cpu
        { tasks := example_idle_table, console := [] } 9 4096
      = some (false, { tasks := example_idle_table, console := [] ++
          [kmsg.MSG_SCHED_TID_CREATE 4096, kmsg.MSG_SCHED_TID_EXCEED] }) ∧
    sched_calls_created example_config
        (sched_init example_config { tasks := [], console := [] }) example_calls
      = example_config.TASK_MAX_COUNT ∧
    (∃ s : sched_state,
      sched_calls_exec example_config
        (sched_init example_config { tasks := [], console := [] }) example_calls = some s ∧
      (∀ k, k < example_config.TASK_MAX_COUNT → occupied s.tasks k = true) ∧
      sched_create_task example_config example_cpu s 9 4096
        = some (false, { tasks := s.tasks, console := s.console ++
            [kmsg.MSG_SCHED_TID_CREATE 4096, kmsg.MSG_SCHED_TID_EXCEED] })) :=
  ⟨by decide, by decide,
    (sched_create_task_capacity example_config example_cpu 9 4096).1
      { tasks := example_idle_table, console := [] } (by decide) (by decide),
    by decide,
    (sched_create_task_capacity example_config example_cpu 9 4096).2
      { tasks := [], console := [] } example_calls (by decide)⟩

/-- C4: when the table has a free slot and no occupied slot holds the id,
`sched_create_task` returns true; the table changes only at the lowest free
slot `j`, which becomes occupied with the id, status `TASK_UNINTERRUPTABLE`,
message count and time zero, general purpose registers zero, the flags and
segment selectors of the processor, and `eip` the entry point. -/
theorem sched_create_task_success (c : task_config) (cpu : cpu_regs) (s : sched_state)
    (tid address : Nat) (hok : table_ok c s.tasks)
    (hfree : ∃ k, k < c.TASK_MAX_COUNT ∧ free_slot s.tasks k = true)
    (hnew : ∀ k, k < c.TASK_MAX_COUNT → holds_tid s.tasks tid k = false) :
    ∃ (j : Nat) (s1 : sched_state) (t1 : sched_task),
      sched_create_task c cpu s tid address = some (true, s1) ∧
      j < c.TASK_MAX_COUNT ∧ free_slot s.tasks j = true ∧
      (∀ k, k < j → free_slot s.tasks k = false) ∧
      s1.tasks.length = s.tasks.length ∧
      (∀ k, k ≠ j → s1.tasks[k]? = s.tasks[k]?) ∧
      s1.tasks[j]? = some t1 ∧
      t1.is_valid = true ∧ t1.tid = tid ∧ t1.status = c.TASK_UNINTERRUPTABLE ∧
      t1.msg_count_in = 0 ∧ t1.time = 0 ∧
      t1.gp_registers = { edi := 0, esi := 0, ebp := 0, esp := 0,
                          ebx := 0, edx := 0, ecx := 0, eax := 0 } ∧
      t1.flags = cpu.flags ∧ t1.op_registers.cs = cpu.cs ∧ t1.op_registers.ds = cpu.ds ∧
      t1.op_registers.ss = cpu.ss ∧ t1.op_registers.eip = address := by
  obtain ⟨kf, _, hkf⟩ := hfree
  rcases sched_create_task_cases c cpu s tid address hok with
    ⟨hfull, _⟩ | ⟨_, ⟨kd, hkd⟩, _⟩ | ⟨j, t, hj, hjf, hmin, _, _, _, hop⟩
  · rw [hfull kf] at hkf
    exact absurd hkf (by decide)
  · have hlt : kd < c.TASK_MAX_COUNT := by
      by_contra hge
      have : s.tasks.length ≤ kd := by rw [hok]; omega
      simp [holds_tid, List.getElem?_eq_none this] at hkd
    rw [hnew kd hlt] at hkd
    exact absurd hkd (by decide)
  · have hjl : j < s.tasks.length := by rw [hok]; exact hj
    refine ⟨j, _, sched_create_task_fill c cpu tid address j t, hop, hj, hjf, hmin, ?_, ?_, ?_,
      rfl, rfl, rfl, rfl, rfl, rfl, rfl, rfl, rfl, rfl, rfl⟩
    · simp
    · intro k hk
      exact List.getElem?_set_ne (Ne.symm hk)
    · exact List.getElem?_set_self hjl

/-- Witness of C4: slot 0 of the example table is free and id 5 is new, so the
creation fills slot 0 and leaves slots 1 and 2 as they were. -/
theorem sched_create_task_success_witness :
    table_ok example_config example_stale_table ∧
    (∃ k, k < example_config.TASK_MAX_COUNT ∧ free_slot example_stale_table k = true) ∧
    (∀ k, k < example_config.TASK_MAX_COUNT → holds_tid example_stale_table 5 k = false) ∧
    (∃ (j : Nat) (s1 : sched_state) (t1 : sched_task),
      sched_create_task example_config example_cpu
        { tasks := example_stale_table, console := [] } 5 4096 = some (true, s1) ∧
      j < example_config.TASK_MAX_COUNT ∧ free_slot example_stale_table j = true ∧
      (∀ k, k < j → free_slot example_stale_table k = false) ∧
      s1.tasks.length = example_stale_table.length ∧
      (∀ k, k ≠ j → s1.tasks[k]? = example_stale_table[k]?) ∧
      s1.tasks[j]? = some t1 ∧
      t1.is_valid = true ∧ t1.tid = 5 ∧ t1.status = example_config.TASK_UNINTERRUPTABLE ∧
      t1.msg_count_in = 0 ∧ t1.time = 0 ∧
      t1.gp_registers = { edi := 0, esi := 0, ebp := 0, esp := 0,
                          ebx := 0, edx := 0, ecx := 0, eax := 0 } ∧
      t1.flags = example_cpu.flags ∧ t1.op_registers.cs = example_cpu.cs ∧
      t1.op_registers.ds = example_cpu.ds ∧ t1.op_registers.ss = example_cpu.ss ∧
      t1.op_registers.eip = 4096) ∧
    sched_create_task example_config example_cpu
        { tasks := example_stale_table, console := [] } 5 4096
      = some (true,
          { tasks := [{ tid := 5, flags := 514, gp_registers := gp_registers_zero,
                        op_registers := { cs := 8, ds := 16, ss := 16, eip := 4096,
                                          esp := 1049600 },
                        status := 0, msg_count_in := 0, time := 0, is_valid := true },
                      example_task 7 0 true, example_task 9 1 true],
            console := [kmsg.MSG_SCHED_TID_CREATE 4096] }) :=
  ⟨by decide, ⟨0, by decide, by decide⟩, by decide,
    sched_create_task_success example_config example_cpu
      { tasks := example_stale_table, console := [] } 5 4096 (by decide)
      ⟨0, by decide, by decide⟩ (by decide),
    by decide⟩

/-- C11: `sched_run_task_by_id` returns the same value and leaves the same state as
`sched_set_task_status_by_id` with `TASK_RUNNING`, and `sched_stop_task_by_id` the
same as with `TASK_UNINTERRUPTABLE`; on a table of the right size each of the
two returns false exactly when no occupied slot holds the id. -/
theorem sched_run_stop_as_set_status (c : task_config) (s : sched_state) (tid : Nat) :
    sched_run_task_by_id c s tid = sched_set_task_status_by_id c s tid c.TASK_RUNNING ∧
    sched_stop_task_by_id c s tid
      = sched_set_task_status_by_id c s tid c.TASK_UNINTERRUPTABLE ∧
    (table_ok c s.tasks →
      (∃ (r : Bool) (s1 : sched_state), sched_run_task_by_id c s tid = some (r, s1) ∧
        (r = false ↔ ∀ k, k < c.TASK_MAX_COUNT → holds_tid s.tasks tid k = false)) ∧
      (∃ (r : Bool) (s1 : sched_state), sched_stop_task_by_id c s tid = some (r, s1) ∧
        (r = false ↔ ∀ k, k < c.TASK_MAX_COUNT → holds_tid s.tasks tid k = false))) := by
  refine ⟨rfl, rfl, ?_⟩
  intro hok
  have key : ∀ st : Nat, ∃ (r : Bool) (s1 : sched_state),
      sched_set_task_status_by_id c s tid st = some (r, s1) ∧
      (r = false ↔ ∀ k, k < c.TASK_MAX_COUNT → holds_tid s.tasks tid k = false) := by
    intro st
    rcases sched_set_task_status_by_id_cases c s tid st hok with
      ⟨j, t, hj, _, ht, hv, htid, hop⟩ | ⟨hno, _, hop⟩
    · refine ⟨true, _, hop, ?_⟩
      constructor
      · intro h; exact absurd h (by decide)
      · intro h
        have hh : holds_tid s.tasks tid j = true := by simp [holds_tid, ht, hv, htid]
        rw [h j hj] at hh
        exact absurd hh (by decide)
    · exact ⟨false, _, hop, fun _ k _ => hno k, fun _ => rfl⟩
  exact ⟨key c.TASK_RUNNING, key c.TASK_UNINTERRUPTABLE⟩

/-- Witness of C11: starting the task with id 7 and stopping the unknown id 4 on
the example table. -/
theorem sched_run_stop_as_set_status_witness :
    table_ok example_config example_stale_table ∧
    sched_run_task_by_id example_config { tasks := example_stale_table, console := [] } 7
      = sched_set_task_status_by_id example_config
          { tasks := example_stale_table, console := [] } 7 example_config.TASK_RUNNING ∧
    sched_run_task_by_id example_config { tasks := example_stale_table, console := [] } 7
      = some (true, { tasks := [example_task 7 1 false, example_task 7 1 true,
                                example_task 9 1 true], console := [] }) ∧
    (∃ (r : Bool) (s1 : sched_state),
      sched_stop_task_by_id example_config
        { tasks := example_stale_table, console := [] } 4 = some (r, s1) ∧
      (r = false ↔ ∀ k, k < example_config.TASK_MAX_COUNT →
        holds_tid example_stale_table 4 k = false)) ∧
    sched_stop_task_by_id example_config { tasks := example_stale_table, console := [] } 4
      = some (false, { tasks := example_stale_table,
                       console := [kmsg.MSG_SCHED_TID_UNKNOWN] }) :=
  ⟨by decide,
    (sched_run_stop_as_set_status example_config
      { tasks := example_stale_table, console := [] } 7).1,
    by decide,
    ((sched_run_stop_as_set_status example_config
      { tasks := example_stale_table, console := [] } 4).2.2 (by decide)).2,
    by decide⟩

/-- C14, what the code does: a creation that succeeds in slot `j` stores
`(size_t)&stacks[j] + TASK_STACK_SIZE` in `esp`, a sum in bytes; when the stack
size is not zero this is below the top `address_of(stacks[j]) + sizeof(stacks[j])`
of the region, whose elements are pointers. -/
theorem sched_create_task_esp (c : task_config) (cpu : cpu_regs) (s s1 : sched_state)
    (tid address : Nat) (hok : table_ok c s.tasks)
    (hcreate : sched_create_task c cpu s tid address = some (true, s1)) :
    ∃ (j : Nat) (t : sched_task), j < c.TASK_MAX_COUNT ∧ free_slot s.tasks j = true ∧
      (∀ k, k < j → free_slot s.tasks k = false) ∧ s1.tasks[j]? = some t ∧
      t.op_registers.esp = (stacks_row_addr c j + c.TASK_STACK_SIZE) % 2 ^ 32 ∧
      (0 < c.TASK_STACK_SIZE → stacks_row_top c j < 2 ^ 32 →
        t.op_registers.esp < stacks_row_top c j) := by
  rcases sched_create_task_cases c cpu s tid address hok with
    ⟨_, hop⟩ | ⟨_, _, hop⟩ | ⟨j, t, hj, hjf, hmin, _, _, _, hop⟩
  · rw [hop] at hcreate
    exact absurd (Prod.mk.inj (Option.some.inj hcreate)).1 (by decide)
  · rw [hop] at hcreate
    exact absurd (Prod.mk.inj (Option.some.inj hcreate)).1 (by decide)
  · rw [hop] at hcreate
    have hs := (Prod.mk.inj (Option.some.inj hcreate)).2
    subst hs
    have hjl : j < s.tasks.length := by rw [hok]; exact hj
    refine ⟨j, sched_create_task_fill c cpu tid address j t, hj, hjf, hmin,
      List.getElem?_set_self hjl, ?_, ?_⟩
    · simp [sched_create_task_fill, sizeof_ptr]
    · intro hpos htop
      have e : (sched_create_task_fill c cpu tid address j t).op_registers.esp
          = (stacks_row_addr c j + c.TASK_STACK_SIZE) % 2 ^ 32 := by
        simp [sched_create_task_fill, sizeof_ptr]
      rw [e]
      have hlt : stacks_row_addr c j + c.TASK_STACK_SIZE < stacks_row_top c j := by
        simp only [stacks_row_top, sizeof_ptr]
        omega
      exact lt_of_le_of_lt (Nat.mod_le _ _) hlt

/-- Witness of C14: the first creation after `sched_init`, with stacks of 1024
elements at address 1048576: `esp` is 1049600, the top of the region of slot 0
is 1052672. -/
theorem sched_create_task_esp_witness :
    table_ok example_config (sched_init example_config { tasks := [], console := [] }).tasks ∧
    sched_create_task example_config example_cpu
        (sched_init example_config { tasks := [], console := [] }) 1 4096
      = some (true,
          { tasks := [{ tid := 1, flags := 514, gp_registers := gp_registers_zero,
                        op_registers := { cs := 8, ds := 16, ss := 16, eip := 4096,
                                          esp := 1049600 },
                        status := 0, msg_count_in := 0, time := 0, is_valid := true },
                      sched_task_zero, sched_task_zero],
            console := [kmsg.MSG_SCHED_TID_CREATE 4096] }) ∧
    stacks_row_top example_config 0 = 1052672 ∧
    (∃ (j : Nat) (t : sched_task), j < example_config.TASK_MAX_COUNT ∧
      free_slot (sched_init example_config { tasks := [], console := [] }).tasks j = true ∧
      (∀ k, k < j →
        free_slot (sched_init example_config { tasks := [], console := [] }).tasks k = false) ∧
      ({ tasks := [{ tid := 1, flags := 514, gp_registers := gp_registers_zero,
                     op_registers := { cs := 8, ds := 16, ss := 16, eip := 4096,
                                       esp := 1049600 },
                     status := 0, msg_count_in := 0, time := 0, is_valid := true },
                   sched_task_zero, sched_task_zero],
         console := [kmsg.MSG_SCHED_TID_CREATE 4096] } : sched_state).tasks[j]? = some t ∧
      t.op_registers.esp = (stacks_row_addr example_config j
        + example_config.TASK_STACK_SIZE) % 2 ^ 32 ∧
      (0 < example_config.TASK_STACK_SIZE → stacks_row_top example_config j < 2 ^ 32 →
        t.op_registers.esp < stacks_row_top example_config j)) :=
  ⟨by decide, by decide, by decide,
    sched_create_task_esp example_config example_cpu
      (sched_init example_config { tasks := [], console := [] }) _ 1 4096
      (by decide) (by decide)⟩

/-! ## The keyboard handler -/

theorem status_bit_set (status : Nat) (h256 : status < 256) :
    (status % 256 &&& 1 ≠ 0) ↔ status % 2 = 1 := by
  rw [Nat.mod_eq_of_lt h256, Nat.and_one_is_mod]
  omega

/-- C15, what the code does: when bit 0 of the status byte is set and the scan code
is zero or negative as a `char`, `ih_keyboard` returns after reading the two
ports; it sends no message and writes nothing to `PIC1_CMD_PORT`. -/
theorem ih_keyboard_early_return (h : ih_config) (status data : Nat)
    (hs256 : status < 256) (hd256 : data < 256) (hbit : status % 2 = 1)
    (hcode : data = 0 ∨ 128 ≤ data) :
    ih_keyboard h status data
      = [ih_event.printf_MSG_IRQ1, ih_event.asm_read_port h.KEYBOARD_STATUS_PORT,
         ih_event.asm_read_port h.KEYBOARD_DATA_PORT] ∧
    (∀ port value, ih_event.asm_write_port port value ∉ ih_keyboard h status data) ∧
    (∀ tid msg, ih_event.ksend tid msg ∉ ih_keyboard h status data) := by
  have hb := (status_bit_set status hs256).2 hbit
  have hk : char_of_byte data < 1 := by
    simp only [char_of_byte, Nat.mod_eq_of_lt hd256]
    split <;> omega
  have e : ih_keyboard h status data
      = [ih_event.printf_MSG_IRQ1, ih_event.asm_read_port h.KEYBOARD_STATUS_PORT,
         ih_event.asm_read_port h.KEYBOARD_DATA_PORT] := by
    simp only [ih_keyboard, hk, if_true]
    rw [if_pos hb]
  rw [e]
  exact ⟨rfl, by simp, by simp⟩

/-- Witness of C15: status byte 1 with scan code 0, and status byte 1 with scan
code 128 (negative as a `char`): no end-of-interrupt is written. -/
theorem ih_keyboard_early_return_witness :
    ih_keyboard example_ih_config 1 0
      = [ih_event.printf_MSG_IRQ1, ih_event.asm_read_port 100, ih_event.asm_read_port 96] ∧
    ih_event.asm_write_port example_ih_config.PIC1_CMD_PORT 32
      ∉ ih_keyboard example_ih_config 1 0 ∧
    ih_event.asm_write_port example_ih_config.PIC1_CMD_PORT 32
      ∉ ih_keyboard example_ih_config 1 128 :=
  ⟨(ih_keyboard_early_return example_ih_config 1 0 (by decide) (by decide) (by decide)
      (Or.inl rfl)).1,
    (ih_keyboard_early_return example_ih_config 1 0 (by decide) (by decide) (by decide)
      (Or.inl rfl)).2.1 _ _,
    (ih_keyboard_early_return example_ih_config 1 128 (by decide) (by decide) (by decide)
      (Or.inr (by decide))).2.1 _ _⟩

/-- C16: with bit 0 of the status byte set and a scan code `c` in 1 .. 127,
`ih_keyboard` calls `ksend` once, for `TID_TTY`, with a message of type
`TTY_MSG_TYPE_GETC`, length 1 and first data byte `c`; with bit 0 clear it reads
the status port only and sends nothing; with bit 0 set and a scan code below 1
as a `char` it sends nothing. -/
theorem ih_keyboard_ksend (h : ih_config) (status data : Nat)
    (hs256 : status < 256) (hd256 : data < 256) :
    (status % 2 = 1 → 1 ≤ data → data ≤ 127 →
      ih_keyboard h status data
        = [ih_event.printf_MSG_IRQ1, ih_event.asm_read_port h.KEYBOARD_STATUS_PORT,
           ih_event.asm_read_port h.KEYBOARD_DATA_PORT,
           ih_event.ksend h.TID_TTY
             { type := h.TTY_MSG_TYPE_GETC, len := 1,
               data := data :: List.replicate (h.MSG_DATA_SIZE - 1) 0 },
           ih_event.asm_write_port h.PIC1_CMD_PORT 32]) ∧
    (status % 2 = 0 →
      ih_keyboard h status data
        = [ih_event.printf_MSG_IRQ1, ih_event.asm_read_port h.KEYBOARD_STATUS_PORT,
           ih_event.asm_write_port h.PIC1_CMD_PORT 32]) ∧
    (status % 2 = 1 → char_of_byte data < 1 →
      ih_keyboard h status data
        = [ih_event.printf_MSG_IRQ1, ih_event.asm_read_port h.KEYBOARD_STATUS_PORT,
           ih_event.asm_read_port h.KEYBOARD_DATA_PORT]) := by
  refine ⟨?_, ?_, ?_⟩
  · intro hbit h1 h127
    have hb := (status_bit_set status hs256).2 hbit
    have hc : char_of_byte data = (data : Int) := by
      simp only [char_of_byte, Nat.mod_eq_of_lt hd256]
      split
      · rfl
      · omega
    have hk : ¬ char_of_byte data < 1 := by rw [hc]; omega
    have hbyte : (char_of_byte data % 256).toNat = data := by rw [hc]; omega
    simp only [ih_keyboard, hk, if_false, hbyte]
    rw [if_pos hb]
  · intro hbit
    have hb : ¬ (status % 256 &&& 1 ≠ 0) := by
      rw [status_bit_set status hs256]
      omega
    simp only [ih_keyboard]
    rw [if_neg hb]
  · intro hbit hk
    have hb := (status_bit_set status hs256).2 hbit
    simp only [ih_keyboard, hk, if_true]
    rw [if_pos hb]

/-- Witness of C16: status byte 1 with scan code 65 sends one message with first
byte 65; status byte 2 (bit 0 clear) reads the status port only; status byte 1
with scan code 200 sends nothing. -/
theorem ih_keyboard_ksend_witness :
    ih_keyboard example_ih_config 1 65
      = [ih_event.printf_MSG_IRQ1, ih_event.asm_read_port 100, ih_event.asm_read_port 96,
         ih_event.ksend 1 { type := 1, len := 1, data := [65, 0, 0, 0] },
         ih_event.asm_write_port 32 32] ∧
    ih_keyboard example_ih_config 2 65
      = [ih_event.printf_MSG_IRQ1, ih_event.asm_read_port 100,
         ih_event.asm_write_port 32 32] ∧
    ih_keyboard example_ih_config 1 200
      = [ih_event.printf_MSG_IRQ1, ih_event.asm_read_port 100, ih_event.asm_read_port 96] :=
  ⟨(ih_keyboard_ksend example_ih_config 1 65 (by decide) (by decide)).1
      (by decide) (by decide) (by decide),
    (ih_keyboard_ksend example_ih_config 2 65 (by decide) (by decide)).2.1 (by decide),
    (ih_keyboard_ksend example_ih_config 1 200 (by decide) (by decide)).2.2
      (by decide) (by decide)⟩

/-! ## The status of the occupied slots -/

/-- What one call does to the table, with the status a status call stores. -/
theorem sched_call_exec_status_cases (c : task_config) (s : sched_state) (call : sched_call)
    (hok : table_ok c s.tasks) :
    ∃ (r : Bool) (s1 : sched_state), call.exec c s = some (r, s1) ∧
      (s1.tasks = s.tasks ∨
        (∃ (j : Nat) (t : sched_task) (st : Nat), s.tasks[j]? = some t ∧
          s1.tasks = s.tasks.set j { t with status := st } ∧
          ((∃ tid, call = sched_call.run tid) ∧ st = c.TASK_RUNNING ∨
            (∃ tid, call = sched_call.stop tid) ∧ st = c.TASK_UNINTERRUPTABLE ∨
            ∃ tid, call = sched_call.set_status tid st)) ∨
        (∃ (cpu : cpu_regs) (tid address j : Nat) (t : sched_task),
          call = sched_call.create cpu tid address ∧ s.tasks[j]? = some t ∧
          s1.tasks = s.tasks.set j (sched_create_task_fill c cpu tid address j t))) := by
  have key : ∀ tid st : Nat, ∃ (r : Bool) (s1 : sched_state),
      sched_set_task_status_by_id c s tid st = some (r, s1) ∧
      (s1.tasks = s.tasks ∨
        ∃ (j : Nat) (t : sched_task), s.tasks[j]? = some t ∧
          s1.tasks = s.tasks.set j { t with status := st }) := by
    intro tid st
    rcases sched_set_task_status_by_id_cases c s tid st hok with
      ⟨j, t, _, _, ht, _, _, hop⟩ | ⟨_, _, hop⟩
    · exact ⟨true, _, hop, Or.inr ⟨j, t, ht, rfl⟩⟩
    · exact ⟨false, _, hop, Or.inl rfl⟩
  cases call with
  | create cpu tid address =>
    rcases sched_create_task_cases c cpu s tid address hok with
      ⟨_, hop⟩ | ⟨_, _, hop⟩ | ⟨j, t, _, _, _, _, ht, _, hop⟩
    · exact ⟨false, _, hop, Or.inl rfl⟩
    · exact ⟨false, _, hop, Or.inl rfl⟩
    · exact ⟨true, _, hop, Or.inr (Or.inr ⟨cpu, tid, address, j, t, rfl, ht, rfl⟩)⟩
  | run tid =>
    obtain ⟨r, s1, hop, h | ⟨j, t, ht, hs⟩⟩ := key tid c.TASK_RUNNING
    · exact ⟨r, s1, hop, Or.inl h⟩
    · exact ⟨r, s1, hop, Or.inr (Or.inl ⟨j, t, _, ht, hs, Or.inl ⟨⟨tid, rfl⟩, rfl⟩⟩)⟩
  | stop tid =>
    obtain ⟨r, s1, hop, h | ⟨j, t, ht, hs⟩⟩ := key tid c.TASK_UNINTERRUPTABLE
    · exact ⟨r, s1, hop, Or.inl h⟩
    · exact ⟨r, s1, hop, Or.inr (Or.inl ⟨j, t, _, ht, hs, Or.inr (Or.inl ⟨⟨tid, rfl⟩, rfl⟩)⟩)⟩
  | set_status tid status =>
    obtain ⟨r, s1, hop, h | ⟨j, t, ht, hs⟩⟩ := key tid status
    · exact ⟨r, s1, hop, Or.inl h⟩
    · exact ⟨r, s1, hop, Or.inr (Or.inl ⟨j, t, _, ht, hs, Or.inr (Or.inr ⟨tid, rfl⟩)⟩)⟩

/-- Writing an entry whose status is one of the two values keeps every occupied
slot in the two values. -/
theorem status_domain_set (c : task_config) (tasks : List sched_task) (j : Nat)
    (t1 : sched_task)
    (h1 : t1.status = c.TASK_UNINTERRUPTABLE ∨ t1.status = c.TASK_RUNNING)
    (hall : ∀ (k : Nat) (t : sched_task), tasks[k]? = some t → t.is_valid = true →
      t.status = c.TASK_UNINTERRUPTABLE ∨ t.status = c.TASK_RUNNING) :
    ∀ (k : Nat) (t : sched_task), (tasks.set j t1)[k]? = some t → t.is_valid = true →
      t.status = c.TASK_UNINTERRUPTABLE ∨ t.status = c.TASK_RUNNING := by
  intro k t hk hv
  by_cases hjk : j = k
  · subst hjk
    rw [List.getElem?_set] at hk
    simp only [if_true] at hk
    split at hk
    · have := Option.some.inj hk
      subst this
      exact h1
    · exact absurd hk (by simp)
  · rw [List.getElem?_set_ne hjk] at hk
    exact hall k t hk hv

/-- Counterexample to C17: after `sched_init`, creating the task 1 and setting its
status to 7 leaves the occupied slot 0 with status 7, which is neither
`TASK_UNINTERRUPTABLE` (0) nor `TASK_RUNNING` (1). -/
theorem sched_status_domain_counterexample :
    sched_calls_exec example_config
        (sched_init example_config { tasks := [], console := [] }) example_status_calls
      = some { tasks := [{ tid := 1, flags := 514, gp_registers := gp_registers_zero,
                           op_registers := { cs := 8, ds := 16, ss := 16, eip := 4096,
                                             esp := 1049600 },
                           status := 7, msg_count_in := 0, time := 0, is_valid := true },
                         sched_task_zero, sched_task_zero],
               console := [kmsg.MSG_SCHED_TID_CREATE 4096] } ∧
    (7 : Nat) ≠ example_config.TASK_UNINTERRUPTABLE ∧ (7 : Nat) ≠ example_config.TASK_RUNNING ∧
    ¬ ∀ (s1 : sched_state), sched_calls_exec example_config
        (sched_init example_config { tasks := [], console := [] }) example_status_calls
          = some s1 →
      ∀ (k : Nat) (t : sched_task), s1.tasks[k]? = some t → t.is_valid = true →
        t.status = example_config.TASK_UNINTERRUPTABLE ∨
        t.status = example_config.TASK_RUNNING := by
  refine ⟨by decide, by decide, by decide, ?_⟩
  intro h
  have h1 := h _ (by decide : sched_calls_exec example_config
      (sched_init example_config { tasks := [], console := [] }) example_status_calls
      = some { tasks := [{ tid := 1, flags := 514, gp_registers := gp_registers_zero,
                           op_registers := { cs := 8, ds := 16, ss := 16, eip := 4096,
                                             esp := 1049600 },
                           status := 7, msg_count_in := 0, time := 0, is_valid := true },
                         sched_task_zero, sched_task_zero],
               console := [kmsg.MSG_SCHED_TID_CREATE 4096] }) 0 _ rfl rfl
  revert h1
  decide

/-- C17, amended: after `sched_init`, every finite sequence of registry calls in
which each `sched_set_task_status_by_id` is given `TASK_UNINTERRUPTABLE` or
`TASK_RUNNING` runs to its end and leaves every occupied slot with one of these
two statuses. -/
theorem sched_status_domain (c : task_config) (s0 : sched_state) (calls : List sched_call)
    (hcalls : ∀ tid st, sched_call.set_status tid st ∈ calls →
      st = c.TASK_UNINTERRUPTABLE ∨ st = c.TASK_RUNNING) :
    ∃ s1 : sched_state, sched_calls_exec c (sched_init c s0) calls = some s1 ∧
      ∀ (k : Nat) (t : sched_task), s1.tasks[k]? = some t → t.is_valid = true →
        t.status = c.TASK_UNINTERRUPTABLE ∨ t.status = c.TASK_RUNNING := by
  have gen : ∀ (calls : List sched_call) (s : sched_state), table_ok c s.tasks →
      (∀ tid st, sched_call.set_status tid st ∈ calls →
        st = c.TASK_UNINTERRUPTABLE ∨ st = c.TASK_RUNNING) →
      (∀ (k : Nat) (t : sched_task), s.tasks[k]? = some t → t.is_valid = true →
        t.status = c.TASK_UNINTERRUPTABLE ∨ t.status = c.TASK_RUNNING) →
      ∃ s1 : sched_state, sched_calls_exec c s calls = some s1 ∧
        ∀ (k : Nat) (t : sched_task), s1.tasks[k]? = some t → t.is_valid = true →
          t.status = c.TASK_UNINTERRUPTABLE ∨ t.status = c.TASK_RUNNING := by
    intro calls
    induction calls with
    | nil => intro s _ _ hall; exact ⟨s, rfl, hall⟩
    | cons call calls ih =>
      intro s hok hargs hall
      obtain ⟨r, s1, hop, h⟩ := sched_call_exec_status_cases c s call hok
      have hrest : ∀ tid st, sched_call.set_status tid st ∈ calls →
          st = c.TASK_UNINTERRUPTABLE ∨ st = c.TASK_RUNNING :=
        fun tid st hm => hargs tid st (List.mem_cons_of_mem _ hm)
      have step : table_ok c s1.tasks ∧
          ∀ (k : Nat) (t : sched_task), s1.tasks[k]? = some t → t.is_valid = true →
            t.status = c.TASK_UNINTERRUPTABLE ∨ t.status = c.TASK_RUNNING := by
        rcases h with hs | ⟨j, t, st, _, hs, hst⟩ | ⟨cpu, tid, address, j, t, _, _, hs⟩
        · rw [hs]; exact ⟨hok, hall⟩
        · rw [hs]
          refine ⟨by simpa [table_ok] using hok, status_domain_set c s.tasks j _ ?_ hall⟩
          rcases hst with ⟨_, e⟩ | ⟨_, e⟩ | ⟨tid, e⟩
          · exact Or.inr e
          · exact Or.inl e
          · exact hargs tid st (by rw [e]; exact List.mem_cons_self _ _)
        · rw [hs]
          exact ⟨by simpa [table_ok] using hok,
            status_domain_set c s.tasks j _ (Or.inl rfl) hall⟩
      obtain ⟨s2, hrun, hall2⟩ := ih s1 step.1 hrest step.2
      exact ⟨s2, by simp only [sched_calls_exec, hop, hrun], hall2⟩
  obtain ⟨hok, _, _⟩ := sched_init_invariant c s0
  refine gen calls (sched_init c s0) hok hcalls ?_
  intro k t hk hv
  have hmem : t ∈ List.replicate c.TASK_MAX_COUNT sched_task_zero :=
    List.mem_iff_getElem?.2 ⟨k, hk⟩
  have := List.eq_of_mem_replicate hmem
  subst this
  exact absurd hv (by decide)

/-- The status changes of `example_domain_calls` store 0 or 1. -/
theorem example_domain_calls_args (tid st : Nat)
    (h : sched_call.set_status tid st ∈ example_domain_calls) :
    st = example_config.TASK_UNINTERRUPTABLE ∨ st = example_config.TASK_RUNNING := by
  simp only [example_domain_calls, List.mem_cons, List.mem_singleton, List.not_mem_nil,
    or_false, sched_call.set_status.injEq, false_or, reduceCtorEq] at h
  rcases h with ⟨_, h⟩ | ⟨_, h⟩
  · exact Or.inr h
  · exact Or.inl h

/-- Witness of C17, amended: the calls of `example_domain_calls` leave slot 0
blocked and slot 1 runnable. -/
theorem sched_status_domain_witness :
    (∀ tid st, sched_call.set_status tid st ∈ example_domain_calls →
      st = example_config.TASK_UNINTERRUPTABLE ∨ st = example_config.TASK_RUNNING) ∧
    (∃ s1 : sched_state,
      sched_calls_exec example_config
        (sched_init example_config { tasks := [], console := [] }) example_domain_calls
          = some s1 ∧
      ∀ (k : Nat) (t : sched_task), s1.tasks[k]? = some t → t.is_valid = true →
        t.status = example_config.TASK_UNINTERRUPTABLE ∨
        t.status = example_config.TASK_RUNNING) ∧
    sched_calls_exec example_config
        (sched_init example_config { tasks := [], console := [] }) example_domain_calls
      = some { tasks := [{ tid := 1, flags := 514, gp_registers := gp_registers_zero,
                           op_registers := { cs := 8, ds := 16, ss := 16, eip := 4096,
                                             esp := 1049600 },
                           status := 0, msg_count_in := 0, time := 0, is_valid := true },
                         { tid := 2, flags := 514, gp_registers := gp_registers_zero,
                           op_registers := { cs := 8, ds := 16, ss := 16, eip := 8192,
                                             esp := 1053696 },
                           status := 1, msg_count_in := 0, time := 0, is_valid := true },
                         sched_task_zero],
               console := [kmsg.MSG_SCHED_TID_CREATE 4096,
                           kmsg.MSG_SCHED_TID_CREATE 8192] } :=
  ⟨example_domain_calls_args,
    sched_status_domain example_config { tasks := [], console := [] } example_domain_calls
      example_domain_calls_args,
    by decide⟩

/-! ## Slots are kept -/

/-- One call keeps every occupied slot occupied with its id, and the number of
occupied slots grows by one exactly when a creation returns true. -/
theorem sched_call_exec_kept (c : task_config) (s : sched_state) (call : sched_call)
    (hok : table_ok c s.tasks) :
    ∃ (r : Bool) (s1 : sched_state), call.exec c s = some (r, s1) ∧ table_ok c s1.tasks ∧
      (∀ (k : Nat) (t : sched_task), s.tasks[k]? = some t → t.is_valid = true →
        ∃ t1, s1.tasks[k]? = some t1 ∧ t1.is_valid = true ∧ t1.tid = t.tid) ∧
      occupied_count s1.tasks
        = occupied_count s.tasks + (if call.is_create && r then 1 else 0) := by
  obtain ⟨r, s1, hop, h⟩ := sched_call_exec_cases c s call hok
  refine ⟨r, s1, hop, ?_⟩
  rcases h with ⟨hr, ht⟩ | ⟨hr, hc, j, t, st, hj, ht, hv, hs⟩ |
    ⟨hr, hc, cpu, tid, address, j, t, _, hj, ht, hv, _, _, hs⟩
  · rw [ht, hr]
    exact ⟨hok, fun k t hk hvk => ⟨t, hk, hvk, rfl⟩, by simp⟩
  · have hjl : j < s.tasks.length := by rw [hok]; exact hj
    have hget : s.tasks[j] = t := (List.getElem?_eq_some_iff.1 ht).2
    rw [hs, hc]
    refine ⟨by simpa [table_ok] using hok, ?_, ?_⟩
    · intro k tk hk hvk
      by_cases hjk : j = k
      · subst hjk
        rw [ht] at hk
        have := Option.some.inj hk
        subst this
        exact ⟨_, List.getElem?_set_self hjl, hvk, rfl⟩
      · exact ⟨tk, by rw [List.getElem?_set_ne hjk]; exact hk, hvk, rfl⟩
    · have hpos : 0 < List.countP (fun t => t.is_valid) s.tasks :=
        List.countP_pos_iff.2 ⟨t, List.mem_iff_getElem?.2 ⟨j, ht⟩, hv⟩
      simp only [occupied_count, List.countP_set _ _ _ _ hjl, hget, hv, if_true,
        Bool.false_and, Bool.false_eq_true, if_false]
      omega
  · have hjl : j < s.tasks.length := by rw [hok]; exact hj
    have hget : s.tasks[j] = t := (List.getElem?_eq_some_iff.1 ht).2
    rw [hs, hc, hr]
    refine ⟨by simpa [table_ok] using hok, ?_, ?_⟩
    · intro k tk hk hvk
      by_cases hjk : j = k
      · subst hjk
        rw [ht] at hk
        have := Option.some.inj hk
        subst this
        rw [hv] at hvk
        exact absurd hvk (by decide)
      · exact ⟨tk, by rw [List.getElem?_set_ne hjk]; exact hk, hvk, rfl⟩
    · simp [occupied_count, List.countP_set _ _ _ _ hjl, hget, hv, sched_create_task_fill]

/-- A sequence of calls keeps every occupied slot occupied with its id and does
not lower the number of occupied slots. -/
theorem sched_calls_exec_kept (c : task_config) (calls : List sched_call) (s : sched_state)
    (hok : table_ok c s.tasks) :
    ∃ s1 : sched_state, sched_calls_exec c s calls = some s1 ∧ table_ok c s1.tasks ∧
      (∀ (k : Nat) (t : sched_task), s.tasks[k]? = some t → t.is_valid = true →
        ∃ t1, s1.tasks[k]? = some t1 ∧ t1.is_valid = true ∧ t1.tid = t.tid) ∧
      occupied_count s.tasks ≤ occupied_count s1.tasks := by
  induction calls generalizing s with
  | nil => exact ⟨s, rfl, hok, fun k t hk hv => ⟨t, hk, hv, rfl⟩, le_refl _⟩
  | cons call calls ih =>
    obtain ⟨r, s1, hop, hok1, hkept, hcount⟩ := sched_call_exec_kept c s call hok
    obtain ⟨s2, hrun, hok2, hkept2, hcount2⟩ := ih s1 hok1
    refine ⟨s2, by simp only [sched_calls_exec, hop, hrun], hok2, ?_, by omega⟩
    intro k t hk hv
    obtain ⟨t1, hk1, hv1, htid1⟩ := hkept k t hk hv
    obtain ⟨t2, hk2, hv2, htid2⟩ := hkept2 k t1 hk1 hv1
    exact ⟨t2, hk2, hv2, htid2.trans htid1⟩

/-- A result of `sched_find_task_index` that is an index is an occupied slot
holding the id. -/
theorem sched_find_task_index_holds (c : task_config) (tasks : List sched_task)
    (tid i : Nat) (hok : table_ok c tasks)
    (h : sched_find_task_index c tasks tid = some (i : Int)) :
    i < c.TASK_MAX_COUNT ∧ holds_tid tasks tid i = true := by
  rcases sched_find_task_index_cases c tasks tid hok with ⟨j, hj, hh, _, hf⟩ | ⟨_, hf⟩
  · rw [hf] at h
    have e : j = i := by
      have := Option.some.inj h
      omega
    subst e
    exact ⟨hj, hh⟩
  · rw [hf] at h
    have := Option.some.inj h
    omega

/-- C18: on a table of the right size, one registry call of any kind keeps every
occupied slot occupied with the same id and does not lower the number of
occupied slots; with unique ids, an index returned by `sched_find_task_index`
for an id is returned again after any later sequence of registry calls. -/
theorem sched_slots_kept (c : task_config) (s : sched_state) (hok : table_ok c s.tasks) :
    (∀ call : sched_call, ∃ (r : Bool) (s1 : sched_state), call.exec c s = some (r, s1) ∧
      (∀ (k : Nat) (t : sched_task), s.tasks[k]? = some t → t.is_valid = true →
        ∃ t1, s1.tasks[k]? = some t1 ∧ t1.is_valid = true ∧ t1.tid = t.tid) ∧
      occupied_count s.tasks ≤ occupied_count s1.tasks) ∧
    (tid_unique s.tasks → ∀ (calls : List sched_call) (id i : Nat),
      sched_find_task_index c s.tasks id = some (i : Int) →
      ∃ s1 : sched_state, sched_calls_exec c s calls = some s1 ∧
        sched_find_task_index c s1.tasks id = some (i : Int) ∧
        occupied_count s.tasks ≤ occupied_count s1.tasks) := by
  constructor
  · intro call
    obtain ⟨r, s1, hop, _, hkept, hcount⟩ := sched_call_exec_kept c s call hok
    exact ⟨r, s1, hop, hkept, by omega⟩
  · intro hu calls id i hfind
    obtain ⟨s1, hrun, hok1, hkept, hcount⟩ := sched_calls_exec_kept c calls s hok
    obtain ⟨s2, hrun2, _, hu2, _⟩ := sched_calls_exec_invariant c calls s hok hu
    rw [hrun] at hrun2
    have e := Option.some.inj hrun2
    subst e
    refine ⟨s1, hrun, ?_, hcount⟩
    obtain ⟨_, hh⟩ := sched_find_task_index_holds c s.tasks id i hok hfind
    obtain ⟨t, ht, hv, htid⟩ := holds_tid_get s.tasks id i hh
    obtain ⟨t1, ht1, hv1, htid1⟩ := hkept i t ht hv
    have hh1 : holds_tid s1.tasks id i = true := by
      simp [holds_tid, ht1, hv1, htid1, htid]
    refine sched_find_task_index_found c s1.tasks id i hok1 hh1 ?_
    intro k hk
    by_contra hne
    have hhk : holds_tid s1.tasks id k = true := by simpa using hne
    obtain ⟨tk, htk, hvk, htidk⟩ := holds_tid_get s1.tasks id k hhk
    have := (tid_unique_iff s1.tasks).1 hu2 k i tk t1 htk ht1 hvk hv1
      (by rw [htidk, htid1, htid])
    omega

/-- Witness of C18: on the example table, creating the task 5 keeps the slots 1
and 2, and the index 2 of the id 9 is found again after the calls of
`example_calls`. -/
theorem sched_slots_kept_witness :
    table_ok example_config example_stale_table ∧
    tid_unique example_stale_table ∧
    sched_find_task_index example_config example_stale_table 9 = some ((2 : Nat) : Int) ∧
    (∃ (r : Bool) (s1 : sched_state),
      (sched_call.create example_cpu 5 4096).exec example_config
        { tasks := example_stale_table, console := [] } = some (r, s1) ∧
      (∀ (k : Nat) (t : sched_task), example_stale_table[k]? = some t → t.is_valid = true →
        ∃ t1, s1.tasks[k]? = some t1 ∧ t1.is_valid = true ∧ t1.tid = t.tid) ∧
      occupied_count example_stale_table ≤ occupied_count s1.tasks) ∧
    (∃ s1 : sched_state,
      sched_calls_exec example_config { tasks := example_stale_table, console := [] }
        example_calls = some s1 ∧
      sched_find_task_index example_config s1.tasks 9 = some ((2 : Nat) : Int) ∧
      occupied_count example_stale_table ≤ occupied_count s1.tasks) :=
  ⟨by decide, by decide, by decide,
    (sched_slots_kept example_config { tasks := example_stale_table, console := [] }
      (by decide)).1 (sched_call.create example_cpu 5 4096),
    (sched_slots_kept example_config { tasks := example_stale_table, console := [] }
      (by decide)).2 (by decide) example_calls 9 2 (by decide)⟩

/-! ## The occupied slots are the first ones -/

theorem occupied_set_status (tasks : List sched_task) (j : Nat) (t : sched_task) (st : Nat)
    (ht : tasks[j]? = some t) (i : Nat) :
    occupied (tasks.set j { t with status := st }) i = occupied tasks i := by
  have hjl : j < tasks.length := (List.getElem?_eq_some_iff.1 ht).1
  by_cases hji : j = i
  · subst hji
    simp [occupied, List.getElem?_set_self hjl, ht]
  · simp [occupied, List.getElem?_set_ne hji]

/-- When the occupied slots are the first ones, the lowest free slot is the one
whose index is the number of occupied slots. -/
theorem lowest_free_eq_count (tasks : List sched_task) (j : Nat) (t : sched_task)
    (hseg : ∀ i, occupied tasks i = true ↔ i < occupied_count tasks)
    (ht : tasks[j]? = some t) (hv : t.is_valid = false)
    (hmin : ∀ k, k < j → free_slot tasks k = false) :
    j = occupied_count tasks := by
  have hjl : j < tasks.length := (List.getElem?_eq_some_iff.1 ht).1
  have h1 : ¬ j < occupied_count tasks := by
    intro hlt
    have := (hseg j).2 hlt
    simp [occupied, ht, hv] at this
  by_contra hne
  have hlt : occupied_count tasks < j := by omega
  have hkl : occupied_count tasks < tasks.length := by omega
  have hfree := hmin _ hlt
  have hocc : occupied tasks (occupied_count tasks) = true := by
    simp only [free_slot, List.getElem?_eq_getElem hkl] at hfree
    simp only [occupied, List.getElem?_eq_getElem hkl]
    simpa using hfree
  have := (hseg _).1 hocc
  omega

/-- One call keeps the occupied slots the first ones. -/
theorem sched_call_exec_first_slots (c : task_config) (s : sched_state) (call : sched_call)
    (hok : table_ok c s.tasks)
    (hseg : ∀ i, occupied s.tasks i = true ↔ i < occupied_count s.tasks) :
    ∃ (r : Bool) (s1 : sched_state), call.exec c s = some (r, s1) ∧ table_ok c s1.tasks ∧
      (∀ i, occupied s1.tasks i = true ↔ i < occupied_count s1.tasks) ∧
      occupied_count s1.tasks
        = occupied_count s.tasks + (if call.is_create && r then 1 else 0) := by
  obtain ⟨r, s1, hop, hok1, _, hcount⟩ := sched_call_exec_kept c s call hok
  obtain ⟨r2, s2, hop2, h⟩ := sched_call_exec_cases c s call hok
  rw [hop] at hop2
  have e := Prod.mk.inj (Option.some.inj hop2)
  have e1 := e.1
  have e2 := e.2
  subst e1
  subst e2
  refine ⟨r, s1, hop, hok1, ?_, hcount⟩
  rcases h with ⟨hr, ht⟩ | ⟨hr, hc, j, t, st, hj, ht, hv, hs⟩ |
    ⟨hr, hc, cpu, tid, address, j, t, _, hj, ht, hv, hmin, _, hs⟩
  · have hc0 : occupied_count s1.tasks = occupied_count s.tasks := by
      rw [hcount, hr]; simp
    intro i
    rw [hc0, ht]
    exact hseg i
  · have hc0 : occupied_count s1.tasks = occupied_count s.tasks := by
      rw [hcount, hc]; simp
    intro i
    rw [hc0, hs, occupied_set_status s.tasks j t st ht i]
    exact hseg i
  · have hc0 : occupied_count s1.tasks = occupied_count s.tasks + 1 := by
      rw [hcount, hc, hr]; simp
    have hjc := lowest_free_eq_count s.tasks j t hseg ht hv hmin
    have hjl : j < s.tasks.length := by rw [hok]; exact hj
    intro i
    rw [hc0, hs]
    by_cases hji : j = i
    · subst hji
      simp only [occupied, List.getElem?_set_self hjl, sched_create_task_fill, true_iff]
      omega
    · have := hseg i
      simp only [occupied, List.getElem?_set_ne hji]
      simp only [occupied] at this
      rw [this]
      omega

/-- A sequence of calls keeps the occupied slots the first ones, and their number
grows by the number of creations that returned true. -/
theorem sched_calls_exec_first_slots (c : task_config) (calls : List sched_call)
    (s : sched_state) (hok : table_ok c s.tasks)
    (hseg : ∀ i, occupied s.tasks i = true ↔ i < occupied_count s.tasks) :
    ∃ s1 : sched_state, sched_calls_exec c s calls = some s1 ∧ table_ok c s1.tasks ∧
      (∀ i, occupied s1.tasks i = true ↔ i < occupied_count s1.tasks) ∧
      occupied_count s1.tasks = occupied_count s.tasks + sched_calls_created c s calls := by
  induction calls generalizing s with
  | nil => exact ⟨s, rfl, hok, hseg, rfl⟩
  | cons call calls ih =>
    obtain ⟨r, s1, hop, hok1, hseg1, hcount⟩ := sched_call_exec_first_slots c s call hok hseg
    obtain ⟨s2, hrun, hok2, hseg2, hcount2⟩ := ih s1 hok1 hseg1
    refine ⟨s2, by simp only [sched_calls_exec, hop, hrun], hok2, hseg2, ?_⟩
    simp only [sched_calls_created, hop]
    omega

/-- C19: after `sched_init` and any finite sequence of registry calls, with `k` the
number of creations that returned true, `k` is at most `TASK_MAX_COUNT`, slot
`i` is occupied exactly when `i < k`, and a further creation that returns true
fills slot `k`, which was free. -/
theorem sched_occupied_first_slots (c : task_config) (s0 : sched_state)
    (calls : List sched_call) :
    ∃ s1 : sched_state, sched_calls_exec c (sched_init c s0) calls = some s1 ∧
      sched_calls_created c (sched_init c s0) calls ≤ c.TASK_MAX_COUNT ∧
      (∀ i, i < c.TASK_MAX_COUNT →
        (occupied s1.tasks i = true ↔ i < sched_calls_created c (sched_init c s0) calls)) ∧
      (∀ (cpu : cpu_regs) (tid address : Nat) (s2 : sched_state),
        sched_create_task c cpu s1 tid address = some (true, s2) →
        occupied s1.tasks (sched_calls_created c (sched_init c s0) calls) = false ∧
        holds_tid s2.tasks tid (sched_calls_created c (sched_init c s0) calls) = true) := by
  obtain ⟨hok, _, h0⟩ := sched_init_invariant c s0
  have hseg0 : ∀ i, occupied (sched_init c s0).tasks i = true
      ↔ i < occupied_count (sched_init c s0).tasks := by
    intro i
    rw [h0]
    constructor
    · intro h
      exfalso
      simp only [occupied, sched_init] at h
      split at h
      · rename_i t ht
        have hmem : t ∈ List.replicate c.TASK_MAX_COUNT sched_task_zero :=
          List.mem_iff_getElem?.2 ⟨i, ht⟩
        have := List.eq_of_mem_replicate hmem
        subst this
        exact absurd h (by decide)
      · exact absurd h (by decide)
    · intro h; omega
  obtain ⟨s1, hrun, hok1, hseg1, hcount⟩ :=
    sched_calls_exec_first_slots c calls (sched_init c s0) hok hseg0
  have hk : occupied_count s1.tasks = sched_calls_created c (sched_init c s0) calls := by
    rw [hcount, h0]; omega
  refine ⟨s1, hrun, ?_, ?_, ?_⟩
  · rw [← hk, ← hok1]
    exact List.countP_le_length _
  · intro i _
    rw [← hk]
    exact hseg1 i
  · intro cpu tid address s2 hcreate
    rw [← hk]
    rcases sched_create_task_cases c cpu s1 tid address hok1 with
      ⟨_, hop⟩ | ⟨_, _, hop⟩ | ⟨j, t, hj, _, hmin, _, ht, hv, hop⟩
    · rw [hop] at hcreate
      exact absurd (Prod.mk.inj (Option.some.inj hcreate)).1 (by decide)
    · rw [hop] at hcreate
      exact absurd (Prod.mk.inj (Option.some.inj hcreate)).1 (by decide)
    · rw [hop] at hcreate
      have hs := (Prod.mk.inj (Option.some.inj hcreate)).2
      subst hs
      have hjc := lowest_free_eq_count s1.tasks j t hseg1 ht hv hmin
      have hjl : j < s1.tasks.length := by rw [hok1]; exact hj
      rw [← hjc]
      constructor
      · simp [occupied, ht, hv]
      · simp [holds_tid, List.getElem?_set_self hjl, sched_create_task_fill]

/-! ## Which slots the selector can return -/

/-- The selector depends on the table only through the runnable slots. -/
theorem sched_find_task_to_run_index_congr (c : task_config) (t1 t2 : List sched_task)
    (hok1 : table_ok c t1) (hok2 : table_ok c t2)
    (hsame : ∀ k, runnable c t1 k = runnable c t2 k) (i : Nat) (hi : i < c.TASK_MAX_COUNT) :
    sched_find_task_to_run_index c t1 (i : Int) = sched_find_task_to_run_index c t2 (i : Int) := by
  rcases sched_find_task_to_run_index_cases c t1 i hok1 hi with
    ⟨j, hij, hj, hmin, h⟩ | ⟨j, hji, hafter, hj, hmin, h⟩ | ⟨hall, h⟩
  · rw [h]
    exact (sched_find_task_to_run_index_after c t2 i j hok2 hij (by rw [← hsame]; exact hj)
      (fun k h1 h2 => by rw [← hsame]; exact hmin k h1 h2)).symm
  · rw [h]
    exact (sched_find_task_to_run_index_wrap c t2 i j hok2 hi
      (fun k h1 => by rw [← hsame]; exact hafter k h1) hji (by rw [← hsame]; exact hj)
      (fun k h1 => by rw [← hsame]; exact hmin k h1)).symm
  · rw [h]
    exact (sched_find_task_to_run_index_idle c t2 i hok2 hi
      (fun k => by rw [← hsame]; exact hall k)).symm

/-- The selector returns a value, and an index it returns is a runnable slot. -/
theorem sched_find_task_to_run_index_result (c : task_config) (tasks : List sched_task)
    (i : Nat) (hok : table_ok c tasks) (hi : i < c.TASK_MAX_COUNT) :
    ∃ r : Int, sched_find_task_to_run_index c tasks (i : Int) = some r ∧
      ∀ j : Nat, r = (j : Int) → runnable c tasks j = true := by
  rcases sched_find_task_to_run_index_cases c tasks i hok hi with
    ⟨j, _, hj, _, h⟩ | ⟨j, _, _, hj, _, h⟩ | ⟨_, h⟩
  · refine ⟨_, h, ?_⟩
    intro j2 e
    have : j = j2 := by omega
    subst this
    exact hj
  · refine ⟨_, h, ?_⟩
    intro j2 e
    have : j = j2 := by omega
    subst this
    exact hj
  · refine ⟨_, h, ?_⟩
    intro j2 e
    omega

/-- Every runnable slot is returned from some starting index. -/
theorem sched_find_task_to_run_index_reachable (c : task_config) (tasks : List sched_task)
    (k : Nat) (hok : table_ok c tasks) (hk : runnable c tasks k = true) :
    ∃ i, i < c.TASK_MAX_COUNT ∧
      sched_find_task_to_run_index c tasks (i : Int) = some (k : Int) := by
  have hkN := runnable_lt c tasks k hok hk
  cases k with
  | zero =>
    refine ⟨c.TASK_MAX_COUNT - 1, by omega, ?_⟩
    refine sched_find_task_to_run_index_wrap c tasks _ 0 hok (by omega) ?_ (Nat.zero_le _) hk
      (fun m hm => by omega)
    intro m hm
    by_contra hne
    have := runnable_lt c tasks m hok (by simpa using hne)
    omega
  | succ k =>
    refine ⟨k, by omega, ?_⟩
    exact sched_find_task_to_run_index_after c tasks k (k + 1) hok (by omega) hk
      (fun m h1 h2 => by omega)

theorem runnable_set_status (c : task_config) (tasks : List sched_task) (j : Nat)
    (t : sched_task) (st : Nat) (ht : tasks[j]? = some t) (k : Nat) :
    runnable c (tasks.set j { t with status := st }) k
      = if k = j then (t.is_valid && decide (st = c.TASK_RUNNING)) else runnable c tasks k := by
  have hjl : j < tasks.length := (List.getElem?_eq_some_iff.1 ht).1
  by_cases hkj : k = j
  · subst hkj
    simp [runnable, List.getElem?_set_self hjl]
  · have hjk : j ≠ k := fun e => hkj e.symm
    simp [runnable, List.getElem?_set_ne hjk, hkj]

theorem holds_tid_set_status (tasks : List sched_task) (j : Nat) (t : sched_task) (st : Nat)
    (ht : tasks[j]? = some t) (tid k : Nat) :
    holds_tid (tasks.set j { t with status := st }) tid k = holds_tid tasks tid k := by
  have hjl : j < tasks.length := (List.getElem?_eq_some_iff.1 ht).1
  by_cases hji : j = k
  · subst hji
    simp [holds_tid, List.getElem?_set_self hjl, ht]
  · simp [holds_tid, List.getElem?_set_ne hji]

/-- C12: when the two status values differ and the id is present,
`sched_stop_task_by_id` returns true and, in the table it leaves, the selector
returns from every starting index a value other than the index
`sched_find_task_index` gives for the id, while every other slot that was
runnable is still runnable and is returned from some starting index. -/
theorem sched_stop_task_skipped (c : task_config) (s : sched_state) (tid : Nat)
    (hok : table_ok c s.tasks) (hne : c.TASK_UNINTERRUPTABLE ≠ c.TASK_RUNNING)
    (hpresent : ∃ k, k < c.TASK_MAX_COUNT ∧ holds_tid s.tasks tid k = true) :
    ∃ (j : Nat) (s1 : sched_state),
      sched_stop_task_by_id c s tid = some (true, s1) ∧
      sched_find_task_index c s.tasks tid = some (j : Int) ∧
      sched_find_task_index c s1.tasks tid = some (j : Int) ∧
      (∀ i : Nat, i < c.TASK_MAX_COUNT →
        ∃ r : Int, sched_find_task_to_run_index c s1.tasks (i : Int) = some r ∧
          r ≠ (j : Int)) ∧
      (∀ k : Nat, k < c.TASK_MAX_COUNT → k ≠ j → runnable c s.tasks k = true →
        runnable c s1.tasks k = true ∧
        ∃ i, i < c.TASK_MAX_COUNT ∧
          sched_find_task_to_run_index c s1.tasks (i : Int) = some (k : Int)) := by
  obtain ⟨kp, _, hkp⟩ := hpresent
  rcases sched_set_task_status_by_id_cases c s tid c.TASK_UNINTERRUPTABLE hok with
    ⟨j, t, hj, hf, ht, hv, htid, hop⟩ | ⟨hno, _, _⟩
  · have hok1 : table_ok c (s.tasks.set j { t with status := c.TASK_UNINTERRUPTABLE }) := by
      simpa [table_ok] using hok
    have hnotrun : runnable c (s.tasks.set j { t with status := c.TASK_UNINTERRUPTABLE }) j
        = false := by
      rw [runnable_set_status c s.tasks j t _ ht j]
      simp [hne]
    refine ⟨j, _, hop, hf, ?_, ?_, ?_⟩
    · obtain ⟨_, hh⟩ := sched_find_task_index_holds c s.tasks tid j hok hf
      rcases sched_find_task_index_cases c s.tasks tid hok with ⟨j2, _, _, hmin, hf2⟩ | ⟨_, hf2⟩
      · rw [hf] at hf2
        have e : j2 = j := by
          have := Option.some.inj hf2
          omega
        subst e
        refine sched_find_task_index_found c _ tid j2 hok1 ?_ ?_
        · rw [holds_tid_set_status s.tasks j2 t _ ht]; exact hh
        · intro k hk
          rw [holds_tid_set_status s.tasks j2 t _ ht]; exact hmin k hk
      · rw [hf] at hf2
        have := Option.some.inj hf2
        omega
    · intro i hi
      obtain ⟨r, hr, hrun⟩ := sched_find_task_to_run_index_result c _ i hok1 hi
      refine ⟨r, hr, ?_⟩
      intro e
      have := hrun j e
      rw [hnotrun] at this
      exact absurd this (by decide)
    · intro k _ hkj hk
      have hk1 : runnable c (s.tasks.set j { t with status := c.TASK_UNINTERRUPTABLE }) k
          = true := by
        rw [runnable_set_status c s.tasks j t _ ht k, if_neg hkj]; exact hk
      exact ⟨hk1, sched_find_task_to_run_index_reachable c _ k hok1 hk1⟩
  · rw [hno kp] at hkp
    exact absurd hkp (by decide)

/-- Witness of C12: A, B and C are created and started in slots 0, 1 and 2, then B
is stopped: the selector goes from 0 to 2 and from 2 to 0, and from 1 to 2. -/
theorem sched_stop_task_skipped_witness :
    sched_calls_exec example_config
        (sched_init example_config { tasks := [], console := [] }) example_abc_calls
      = some example_abc_state ∧
    table_ok example_config example_abc_state.tasks ∧
    example_config.TASK_UNINTERRUPTABLE ≠ example_config.TASK_RUNNING ∧
    (∃ (j : Nat) (s1 : sched_state),
      sched_stop_task_by_id example_config example_abc_state 2 = some (true, s1) ∧
      sched_find_task_index example_config example_abc_state.tasks 2 = some (j : Int) ∧
      sched_find_task_index example_config s1.tasks 2 = some (j : Int) ∧
      (∀ i : Nat, i < example_config.TASK_MAX_COUNT →
        ∃ r : Int, sched_find_task_to_run_index example_config s1.tasks (i : Int) = some r ∧
          r ≠ (j : Int)) ∧
      (∀ k : Nat, k < example_config.TASK_MAX_COUNT → k ≠ j →
        runnable example_config example_abc_state.tasks k = true →
        runnable example_config s1.tasks k = true ∧
        ∃ i, i < example_config.TASK_MAX_COUNT ∧
          sched_find_task_to_run_index example_config s1.tasks (i : Int)
            = some (k : Int))) ∧
    sched_stop_task_by_id example_config example_abc_state 2
      = some (true, example_abc_stopped) ∧
    sched_find_task_index example_config example_abc_state.tasks 2 = some 1 ∧
    sched_find_task_to_run_index example_config example_abc_stopped.tasks 0 = some 2 ∧
    sched_find_task_to_run_index example_config example_abc_stopped.tasks 2 = some 0 ∧
    sched_find_task_to_run_index example_config example_abc_stopped.tasks 1 = some 2 :=
  ⟨by decide, by decide, by decide,
    sched_stop_task_skipped example_config example_abc_state 2 (by decide) (by decide)
      ⟨1, by decide, by decide⟩,
    by decide, by decide, by decide, by decide, by decide⟩

/-- C13: when the two status values differ and `sched_create_task` returns true, it
has filled a slot `j` that was free; in the table it leaves, the selector
returns from every starting index what it returned before, and never `j`; and
`sched_run_task_by_id` on the new id (the same as `sched_set_task_status_by_id`
with `TASK_RUNNING`) then makes slot `j` runnable and returned from some
starting index. -/
theorem sched_create_task_not_scheduled (c : task_config) (cpu : cpu_regs)
    (s s1 : sched_state) (tid address : Nat) (hok : table_ok c s.tasks)
    (hne : c.TASK_UNINTERRUPTABLE ≠ c.TASK_RUNNING)
    (hcreate : sched_create_task c cpu s tid address = some (true, s1)) :
    ∃ j : Nat, j < c.TASK_MAX_COUNT ∧ free_slot s.tasks j = true ∧
      holds_tid s1.tasks tid j = true ∧
      (∀ k, k ≠ j → s1.tasks[k]? = s.tasks[k]?) ∧
      (∀ i : Nat, i < c.TASK_MAX_COUNT →
        sched_find_task_to_run_index c s1.tasks (i : Int)
          = sched_find_task_to_run_index c s.tasks (i : Int)) ∧
      (∀ i : Nat, i < c.TASK_MAX_COUNT →
        ∃ r : Int, sched_find_task_to_run_index c s1.tasks (i : Int) = some r ∧
          r ≠ (j : Int)) ∧
      ∃ s2 : sched_state, sched_run_task_by_id c s1 tid = some (true, s2) ∧
        sched_set_task_status_by_id c s1 tid c.TASK_RUNNING = some (true, s2) ∧
        runnable c s2.tasks j = true ∧
        ∃ i, i < c.TASK_MAX_COUNT ∧
          sched_find_task_to_run_index c s2.tasks (i : Int) = some (j : Int) := by
  rcases sched_create_task_cases c cpu s tid address hok with
    ⟨_, hop⟩ | ⟨_, _, hop⟩ | ⟨j, t, hj, hjf, _, hnone, ht, hv, hop⟩
  · rw [hop] at hcreate
    exact absurd (Prod.mk.inj (Option.some.inj hcreate)).1 (by decide)
  · rw [hop] at hcreate
    exact absurd (Prod.mk.inj (Option.some.inj hcreate)).1 (by decide)
  · rw [hop] at hcreate
    have hs := (Prod.mk.inj (Option.some.inj hcreate)).2
    subst hs
    have hjl : j < s.tasks.length := by rw [hok]; exact hj
    have hok1 : table_ok c (s.tasks.set j (sched_create_task_fill c cpu tid address j t)) := by
      simpa [table_ok] using hok
    have hget : (s.tasks.set j (sched_create_task_fill c cpu tid address j t))[j]?
        = some (sched_create_task_fill c cpu tid address j t) := List.getElem?_set_self hjl
    have hother : ∀ k, k ≠ j →
        (s.tasks.set j (sched_create_task_fill c cpu tid address j t))[k]? = s.tasks[k]? :=
      fun k hk => List.getElem?_set_ne (Ne.symm hk)
    have hholds : holds_tid (s.tasks.set j (sched_create_task_fill c cpu tid address j t))
        tid j = true := by
      simp only [holds_tid, hget]
      simp [sched_create_task_fill]
    have hnotrun : runnable c (s.tasks.set j (sched_create_task_fill c cpu tid address j t)) j
        = false := by
      simp only [runnable, hget]
      simp [sched_create_task_fill, hne]
    have hsame : ∀ k, runnable c (s.tasks.set j (sched_create_task_fill c cpu tid address j t)) k
        = runnable c s.tasks k := by
      intro k
      by_cases hkj : k = j
      · subst hkj
        rw [hnotrun]
        simp [runnable, ht, hv]
      · simp only [runnable, hother k hkj]
    refine ⟨j, hj, hjf, hholds, hother, ?_, ?_, ?_⟩
    · intro i hi
      exact sched_find_task_to_run_index_congr c _ _ hok1 hok hsame i hi
    · intro i hi
      obtain ⟨r, hr, hrun⟩ := sched_find_task_to_run_index_result c _ i hok1 hi
      refine ⟨r, hr, ?_⟩
      intro e
      have := hrun j e
      rw [hnotrun] at this
      exact absurd this (by decide)
    · have hfind : sched_find_task_index c
          (s.tasks.set j (sched_create_task_fill c cpu tid address j t)) tid
          = some (j : Int) := by
        refine sched_find_task_index_found c _ tid j hok1 hholds ?_
        intro k hk
        have := hnone k
        simp only [holds_tid, hother k (by omega)]
        simpa [holds_tid] using this
      rcases sched_set_task_status_by_id_cases c
          { tasks := s.tasks.set j (sched_create_task_fill c cpu tid address j t),
            console := s.console ++ [kmsg.MSG_SCHED_TID_CREATE address] }
          tid c.TASK_RUNNING hok1 with
        ⟨j2, t2, _, hf2, ht2, hv2, _, hop2⟩ | ⟨_, hf2, _⟩
      · have hf3 : sched_find_task_index c
            (s.tasks.set j (sched_create_task_fill c cpu tid address j t)) tid
            = some (j2 : Int) := hf2
        rw [hfind] at hf3
        have e : j = j2 := by
          have := Option.some.inj hf3
          omega
        subst e
        have hok2 : table_ok c
            ((s.tasks.set j (sched_create_task_fill c cpu tid address j t)).set j
              { t2 with status := c.TASK_RUNNING }) := by
          simpa [table_ok] using hok
        have hrun2 : runnable c
            ((s.tasks.set j (sched_create_task_fill c cpu tid address j t)).set j
              { t2 with status := c.TASK_RUNNING }) j = true := by
          rw [runnable_set_status c _ j t2 _ ht2 j]
          simp [hv2]
        exact ⟨_, hop2, hop2, hrun2,
          sched_find_task_to_run_index_reachable c _ j hok2 hrun2⟩
      · have hf3 : sched_find_task_index c
            (s.tasks.set j (sched_create_task_fill c cpu tid address j t)) tid
            = some (-1) := hf2
        rw [hfind] at hf3
        have := Option.some.inj hf3
        omega

/-- Witness of C13: creating the task 5 in the free slot 0 of the example table
does not change what the selector returns, here 2 from index 0; once the task
is started the selector returns 0 from index 2. -/
theorem sched_create_task_not_scheduled_witness :
    table_ok example_config example_stale_table ∧
    example_config.TASK_UNINTERRUPTABLE ≠ example_config.TASK_RUNNING ∧
    sched_create_task example_config example_cpu
        { tasks := example_stale_table, console := [] } 5 4096
      = some (true, { tasks := [example_created 5 0 4096 1049600, example_task 7 0 true,
                                example_task 9 1 true],
                      console := [kmsg.MSG_SCHED_TID_CREATE 4096] }) ∧
    (∃ j : Nat, j < example_config.TASK_MAX_COUNT ∧ free_slot example_stale_table j = true ∧
      holds_tid [example_created 5 0 4096 1049600, example_task 7 0 true,
                 example_task 9 1 true] 5 j = true) ∧
    sched_find_task_to_run_index example_config example_stale_table 0 = some 2 ∧
    sched_find_task_to_run_index example_config
        [example_created 5 0 4096 1049600, example_task 7 0 true, example_task 9 1 true] 0
      = some 2 ∧
    sched_find_task_to_run_index example_config
        [example_created 5 1 4096 1049600, example_task 7 0 true, example_task 9 1 true] 2
      = some 0 :=
  ⟨by decide, by decide, by decide,
    (sched_create_task_not_scheduled example_config example_cpu
      { tasks := example_stale_table, console := [] }
      { tasks := [example_created 5 0 4096 1049600, example_task 7 0 true,
                  example_task 9 1 true],
        console := [kmsg.MSG_SCHED_TID_CREATE 4096] } 5 4096
      (by decide) (by decide) (by decide)).imp (fun _ h => ⟨h.1, h.2.1, h.2.2.1⟩),
    by decide, by decide, by decide⟩

/-! ## The indices the searches read -/

theorem sched_find_task_index_loop_traced_eq (tasks : List sched_task) (tid : Nat)
    (n i : Nat) :
    sched_find_task_index_loop_traced tasks tid n (i : Int)
      = scan_loop_traced (fun t => decide (t.tid = tid) && t.is_valid) tasks
          ([], some (-1)) n i := by
  induction n generalizing i with
  | zero => rfl
  | succ n ih =>
    simp only [sched_find_task_index_loop_traced, scan_loop_traced, read_task_natCast]
    cases h : tasks[i]? with
    | none => rfl
    | some t =>
      have := ih (i + 1)
      simp only [Nat.cast_add, Nat.cast_one] at this
      simp [this]

theorem sched_get_free_task_index_loop_traced_eq (tasks : List sched_task) (n i : Nat) :
    sched_get_free_task_index_loop_traced tasks n (i : Int)
      = scan_loop_traced (fun t => !t.is_valid) tasks ([], some (-1)) n i := by
  induction n generalizing i with
  | zero => rfl
  | succ n ih =>
    simp only [sched_get_free_task_index_loop_traced, scan_loop_traced, read_task_natCast]
    cases h : tasks[i]? with
    | none => rfl
    | some t =>
      have := ih (i + 1)
      simp only [Nat.cast_add, Nat.cast_one] at this
      simp [this]

theorem sched_find_task_to_run_index_loop_traced_eq (c : task_config)
    (tasks : List sched_task) (rest : List Int × Option Int) (n i : Nat) :
    sched_find_task_to_run_index_loop_traced c tasks rest n (i : Int)
      = scan_loop_traced (fun t => t.is_valid && decide (t.status = c.TASK_RUNNING)) tasks
          rest n i := by
  induction n generalizing i with
  | zero => rfl
  | succ n ih =>
    simp only [sched_find_task_to_run_index_loop_traced, scan_loop_traced, read_task_natCast]
    cases h : tasks[i]? with
    | none => rfl
    | some t =>
      have := ih (i + 1)
      simp only [Nat.cast_add, Nat.cast_one] at this
      simp [this]

/-- The traced loop returns what the loop returns. -/
theorem scan_loop_traced_snd (p : sched_task → Bool) (tasks : List sched_task)
    (rest : List Int × Option Int) (n i : Nat) :
    (scan_loop_traced p tasks rest n i).2 = scan_loop p tasks rest.2 n i := by
  induction n generalizing i with
  | zero => rfl
  | succ n ih =>
    simp only [scan_loop_traced, scan_loop]
    cases h : tasks[i]? with
    | none => rfl
    | some t =>
      by_cases hp : p t = true
      · simp [hp]
      · simp [hp, ih (i + 1)]

/-- The loop reads indices of its range only, besides what the code after it reads. -/
theorem scan_loop_traced_mem (p : sched_task → Bool) (tasks : List sched_task)
    (rest : List Int × Option Int) (n i : Nat) (x : Int)
    (hx : x ∈ (scan_loop_traced p tasks rest n i).1) :
    (∃ k : Nat, x = (k : Int) ∧ i ≤ k ∧ k < i + n) ∨ x ∈ rest.1 := by
  induction n generalizing i with
  | zero => exact Or.inr hx
  | succ n ih =>
    simp only [scan_loop_traced] at hx
    cases h : tasks[i]? with
    | none =>
      simp only [h, List.mem_singleton] at hx
      exact Or.inl ⟨i, hx, le_refl i, by omega⟩
    | some t =>
      simp only [h] at hx
      by_cases hp : p t = true
      · simp only [hp, if_true, List.mem_singleton] at hx
        exact Or.inl ⟨i, hx, le_refl i, by omega⟩
      · simp only [hp, if_false, Bool.false_eq_true, List.mem_cons] at hx
        rcases hx with hx | hx
        · exact Or.inl ⟨i, hx, le_refl i, by omega⟩
        · rcases ih (i + 1) hx with ⟨k, hk, h1, h2⟩ | hr
          · exact Or.inl ⟨k, hk, by omega, by omega⟩
          · exact Or.inr hr

/-- The loop reads no index twice, when the code after it reads no index twice and
none of the indices from `i` on. -/
theorem scan_loop_traced_nodup (p : sched_task → Bool) (tasks : List sched_task)
    (rest : List Int × Option Int) (n i : Nat) (hrest : rest.1.Nodup)
    (hdisj : ∀ k : Nat, i ≤ k → (k : Int) ∉ rest.1) :
    (scan_loop_traced p tasks rest n i).1.Nodup := by
  induction n generalizing i with
  | zero => exact hrest
  | succ n ih =>
    simp only [scan_loop_traced]
    cases h : tasks[i]? with
    | none => simp
    | some t =>
      by_cases hp : p t = true
      · simp [hp]
      · simp only [hp, if_false, Bool.false_eq_true, List.nodup_cons]
        refine ⟨?_, ih (i + 1) (fun k hk => hdisj k (by omega))⟩
        intro hmem
        rcases scan_loop_traced_mem p tasks rest n (i + 1) _ hmem with ⟨k, hk, h1, _⟩ | hr
        · omega
        · exact hdisj i (le_refl i) hr

/-- Inside the table the loop returns what follows it or an index of its range. -/
theorem scan_loop_result (p : sched_task → Bool) (tasks : List sched_task)
    (rest : Option Int) (n i : Nat) (hlen : i + n ≤ tasks.length) :
    scan_loop p tasks rest n i = rest ∨
      ∃ k : Nat, i ≤ k ∧ k < i + n ∧ scan_loop p tasks rest n i = some (k : Int) := by
  rcases slot_sat_first p tasks i n with ⟨j, h1, h2, h3, h4⟩ | hno
  · exact Or.inr ⟨j, h1, h2, scan_loop_found p tasks rest n i j hlen h1 h2 h3 h4⟩
  · exact Or.inl (scan_loop_rest p tasks rest n i hlen hno)

/-- The selector from `m - 1`, written with the two loops over natural indices. -/
theorem sched_find_task_to_run_index_eq_from (c : task_config) (tasks : List sched_task)
    (m : Nat) :
    sched_find_task_to_run_index c tasks ((m : Int) - 1)
      = scan_loop (fun t => t.is_valid && decide (t.status = c.TASK_RUNNING)) tasks
          (scan_loop (fun t => t.is_valid && decide (t.status = c.TASK_RUNNING)) tasks
            (some (-1)) m 0)
          (c.TASK_MAX_COUNT - m) m := by
  have e1 : (((m : Int) - 1 + 1).toNat) = m := by omega
  have e2 : (((c.TASK_MAX_COUNT : Int) - ((m : Int) - 1 + 1)).toNat) = c.TASK_MAX_COUNT - m := by
    omega
  have e3 : ((m : Int) - 1 + 1) = (m : Int) := by omega
  have h0 := sched_find_task_to_run_index_loop_eq c tasks (some (-1)) m 0
  simp only [Nat.cast_zero] at h0
  rw [sched_find_task_to_run_index, e1, e2, h0, e3, sched_find_task_to_run_index_loop_eq]

/-- The traced selector from `m - 1`, written with the two loops over natural
indices. -/
theorem sched_find_task_to_run_index_traced_eq_from (c : task_config)
    (tasks : List sched_task) (m : Nat) :
    sched_find_task_to_run_index_traced c tasks ((m : Int) - 1)
      = scan_loop_traced (fun t => t.is_valid && decide (t.status = c.TASK_RUNNING)) tasks
          (scan_loop_traced (fun t => t.is_valid && decide (t.status = c.TASK_RUNNING)) tasks
            ([], some (-1)) m 0)
          (c.TASK_MAX_COUNT - m) m := by
  have e1 : (((m : Int) - 1 + 1).toNat) = m := by omega
  have e2 : (((c.TASK_MAX_COUNT : Int) - ((m : Int) - 1 + 1)).toNat) = c.TASK_MAX_COUNT - m := by
    omega
  have e3 : ((m : Int) - 1 + 1) = (m : Int) := by omega
  have h0 := sched_find_task_to_run_index_loop_traced_eq c tasks ([], some (-1)) m 0
  simp only [Nat.cast_zero] at h0
  rw [sched_find_task_to_run_index_traced, e1, e2, h0, e3,
    sched_find_task_to_run_index_loop_traced_eq]

/-- C20: on a table of the right size and for a starting index from -1 to
`TASK_MAX_COUNT - 1`, the selector reads only indices in `0 .. TASK_MAX_COUNT - 1`,
none of them twice, and returns -1 or an index in that range;
`sched_find_task_index` and `sched_get_free_task_index` read only indices in
that range and return -1 or an index in it; and `sched_create_task` returns,
writing, when it returns true, the slot `sched_get_free_task_index` gave, which
is inside the table. -/
theorem sched_scans_in_bounds (c : task_config) (tasks : List sched_task)
    (hok : table_ok c tasks) :
    (∀ index : Int, -1 ≤ index → index ≤ (c.TASK_MAX_COUNT : Int) - 1 →
      (sched_find_task_to_run_index_traced c tasks index).2
        = sched_find_task_to_run_index c tasks index ∧
      (∀ x ∈ (sched_find_task_to_run_index_traced c tasks index).1,
        0 ≤ x ∧ x < (c.TASK_MAX_COUNT : Int)) ∧
      (sched_find_task_to_run_index_traced c tasks index).1.Nodup ∧
      ∃ v : Int, sched_find_task_to_run_index c tasks index = some v ∧
        (v = -1 ∨ (0 ≤ v ∧ v < (c.TASK_MAX_COUNT : Int)))) ∧
    (∀ tid : Nat,
      (sched_find_task_index_traced c tasks tid).2 = sched_find_task_index c tasks tid ∧
      (∀ x ∈ (sched_find_task_index_traced c tasks tid).1,
        0 ≤ x ∧ x < (c.TASK_MAX_COUNT : Int)) ∧
      ∃ v : Int, sched_find_task_index c tasks tid = some v ∧
        (v = -1 ∨ (0 ≤ v ∧ v < (c.TASK_MAX_COUNT : Int)))) ∧
    ((sched_get_free_task_index_traced c tasks).2 = sched_get_free_task_index c tasks ∧
      (∀ x ∈ (sched_get_free_task_index_traced c tasks).1,
        0 ≤ x ∧ x < (c.TASK_MAX_COUNT : Int)) ∧
      ∃ v : Int, sched_get_free_task_index c tasks = some v ∧
        (v = -1 ∨ (0 ≤ v ∧ v < (c.TASK_MAX_COUNT : Int)))) ∧
    (∀ (cpu : cpu_regs) (console : List kmsg) (tid address : Nat),
      ∃ (r : Bool) (s1 : sched_state),
        sched_create_task c cpu { tasks := tasks, console := console } tid address
          = some (r, s1) ∧
        table_ok c s1.tasks ∧
        (r = true → ∃ (j : Nat) (t : sched_task), j < c.TASK_MAX_COUNT ∧
          sched_get_free_task_index c tasks = some (j : Int) ∧ tasks[j]? = some t ∧
          s1.tasks = tasks.set j (sched_create_task_fill c cpu tid address j t))) := by
  refine ⟨?_, ?_, ?_, ?_⟩
  · intro index hlo hhi
    obtain ⟨m, hm⟩ : ∃ m : Nat, index = (m : Int) - 1 := ⟨(index + 1).toNat, by omega⟩
    subst hm
    have hmN : m ≤ c.TASK_MAX_COUNT := by omega
    rw [sched_find_task_to_run_index_traced_eq_from, sched_find_task_to_run_index_eq_from]
    refine ⟨?_, ?_, ?_, ?_⟩
    · rw [scan_loop_traced_snd, scan_loop_traced_snd]
    · intro x hx
      rcases scan_loop_traced_mem _ _ _ _ _ x hx with ⟨k, hk, _, h2⟩ | hx2
      · omega
      · rcases scan_loop_traced_mem _ _ _ _ _ x hx2 with ⟨k, hk, _, h2⟩ | hx3
        · omega
        · simp at hx3
    · refine scan_loop_traced_nodup _ _ _ _ _ ?_ ?_
      · exact scan_loop_traced_nodup _ _ _ _ _ List.nodup_nil (fun k _ => by simp)
      · intro k hk hmem
        rcases scan_loop_traced_mem _ _ _ _ _ _ hmem with ⟨k2, hk2, _, h2⟩ | hx3
        · omega
        · simp at hx3
    · rcases scan_loop_result (fun t => t.is_valid && decide (t.status = c.TASK_RUNNING)) tasks
          (scan_loop (fun t => t.is_valid && decide (t.status = c.TASK_RUNNING)) tasks
            (some (-1)) m 0)
          (c.TASK_MAX_COUNT - m) m (by rw [hok]; omega) with h | ⟨k, _, h2, h⟩
      · rw [h]
        rcases scan_loop_result (fun t => t.is_valid && decide (t.status = c.TASK_RUNNING))
            tasks (some (-1)) m 0 (by rw [hok]; omega) with h3 | ⟨k, _, h2, h3⟩
        · exact ⟨-1, h3, Or.inl rfl⟩
        · exact ⟨k, h3, Or.inr ⟨by omega, by omega⟩⟩
      · exact ⟨k, h, Or.inr ⟨by omega, by omega⟩⟩
  · intro tid
    have h0 := sched_find_task_index_loop_traced_eq tasks tid c.TASK_MAX_COUNT 0
    have h1 := sched_find_task_index_loop_eq tasks tid c.TASK_MAX_COUNT 0
    simp only [Nat.cast_zero] at h0 h1
    rw [sched_find_task_index_traced, sched_find_task_index, h0, h1]
    refine ⟨scan_loop_traced_snd _ _ _ _ _, ?_, ?_⟩
    · intro x hx
      rcases scan_loop_traced_mem _ _ _ _ _ x hx with ⟨k, hk, _, h2⟩ | hx2
      · omega
      · simp at hx2
    · rcases scan_loop_result (fun t => decide (t.tid = tid) && t.is_valid) tasks (some (-1))
          c.TASK_MAX_COUNT 0 (by rw [hok]; omega) with h | ⟨k, _, h2, h⟩
      · exact ⟨-1, h, Or.inl rfl⟩
      · exact ⟨k, h, Or.inr ⟨by omega, by omega⟩⟩
  · have h0 := sched_get_free_task_index_loop_traced_eq tasks c.TASK_MAX_COUNT 0
    have h1 := sched_get_free_task_index_loop_eq tasks c.TASK_MAX_COUNT 0
    simp only [Nat.cast_zero] at h0 h1
    rw [sched_get_free_task_index_traced, sched_get_free_task_index, h0, h1]
    refine ⟨scan_loop_traced_snd _ _ _ _ _, ?_, ?_⟩
    · intro x hx
      rcases scan_loop_traced_mem _ _ _ _ _ x hx with ⟨k, hk, _, h2⟩ | hx2
      · omega
      · simp at hx2
    · rcases scan_loop_result (fun t => !t.is_valid) tasks (some (-1))
          c.TASK_MAX_COUNT 0 (by rw [hok]; omega) with h | ⟨k, _, h2, h⟩
      · exact ⟨-1, h, Or.inl rfl⟩
      · exact ⟨k, h, Or.inr ⟨by omega, by omega⟩⟩
  · intro cpu console tid address
    rcases sched_create_task_cases c cpu { tasks := tasks, console := console } tid address
        hok with ⟨_, hop⟩ | ⟨_, _, hop⟩ | ⟨j, t, hj, hjf, hmin, _, ht, _, hop⟩
    · exact ⟨false, _, hop, hok, fun h => absurd h (by decide)⟩
    · exact ⟨false, _, hop, hok, fun h => absurd h (by decide)⟩
    · refine ⟨true, _, hop, by simpa [table_ok] using hok, fun _ => ?_⟩
      exact ⟨j, t, hj, sched_get_free_task_index_found c tasks j hok hjf hmin, ht, rfl⟩

/-- Witness of C20: on the example table the selector from -1 reads slot 0 and
returns 0, from 0 it reads 1 and 2 and returns 2, and on the all-blocked table
from 1 it reads 2, 0, 1 and returns -1; the search for the id 9 reads 0, 1, 2. -/
theorem sched_scans_in_bounds_witness :
    table_ok example_config example_run_table ∧
    sched_find_task_to_run_index_traced example_config example_run_table (-1)
      = ([0], some 0) ∧
    sched_find_task_to_run_index_traced example_config example_run_table 0
      = ([1, 2], some 2) ∧
    sched_find_task_to_run_index_traced example_config example_idle_table 1
      = ([2, 0, 1], some (-1)) ∧
    sched_find_task_index_traced example_config example_stale_table 9
      = ([0, 1, 2], some 2) ∧
    ((sched_find_task_to_run_index_traced example_config example_run_table (-1)).2
        = sched_find_task_to_run_index example_config example_run_table (-1) ∧
      (∀ x ∈ (sched_find_task_to_run_index_traced example_config example_run_table (-1)).1,
        0 ≤ x ∧ x < (example_config.TASK_MAX_COUNT : Int)) ∧
      (sched_find_task_to_run_index_traced example_config example_run_table (-1)).1.Nodup ∧
      ∃ v : Int, sched_find_task_to_run_index example_config example_run_table (-1) = some v ∧
        (v = -1 ∨ (0 ≤ v ∧ v < (example_config.TASK_MAX_COUNT : Int)))) :=
  ⟨by decide, by decide, by decide, by decide, by decide,
    (sched_scans_in_bounds example_config example_run_table (by decide)).1 (-1)
      (by decide) (by decide)⟩

end OcKernel
